import Mathlib

/-!
# fileheap-client: manifest iterator, readers and upload writer

A shallow embedding of `client/client.go`, `client/file.go`, `client/writer.go`
and the data model of `api/model.go`, `api/error.go`.

Modelling conventions

* Go `error` values are `Option Error` (`none` is `nil`); functions returning
  `(value, error)` return `Except Error value` where exactly one of the two is set,
  and a tuple of options where the source returns several pointers.
* `int64` values are `Int`; arithmetic on them wraps to 64 bits (`wrap64`).
* The Go standard library and the network are not part of the repository.
  Their behaviour is collected in `Env`: every theorem holds for every `Env`
  unless it names a hypothesis about it.
* Every HTTP request handed to `http.Client.Do` is appended to `World.requests`.
* The goroutine started by `Writer.open` is the function `Writer.upload`; a
  writer with `pw = some _` and `done = false` has that goroutine in flight.
-/

namespace FileHeap

/-! ## Data model -/

abbrev Byte := Fin 256

/-- The api.Error envelope of `api/error.go`. -/
structure ApiError where
  Code : Int
  Message : String
  Detail : String
deriving DecidableEq, Repr

/-- Go error values that occur in the client. -/
inductive Error where
  /-- client.ErrDone -/
  | ErrDone
  /-- client.ErrUploaded -/
  | ErrUploaded
  /-- client.ErrFileNotFound -/
  | ErrFileNotFound
  /-- an api.Error value returned as an error -/
  | api (e : ApiError)
  /-- errors.Wrap(err, msg) -/
  | Wrap (err : Error) (msg : String)
  /-- errors.WithStack(err) -/
  | WithStack (err : Error)
  /-- base64.CorruptInputError(offset) -/
  | CorruptInputError (offset : Nat)
  /-- io.ErrClosedPipe -/
  | ErrClosedPipe
  /-- any other error produced by a library or by the network -/
  | other (msg : String)
deriving DecidableEq, Repr

/-- The time.Time values of the model: the zero value or an instant. -/
inductive Time where
  | zero
  | instant (unix : Int)
deriving DecidableEq, Repr

/-- The api.FileInfo of `api/model.go`. -/
structure FileInfo where
  Path : String
  Size : Int
  Digest : List Byte
  Updated : Time
deriving DecidableEq, Repr

/-- The api.ManifestPage of `api/model.go`. -/
structure ManifestPage where
  Files : List FileInfo
  Cursor : String
deriving DecidableEq, Repr

/-- The api.PackagePatch of `api/model.go` (the only JSON request body of the client). -/
structure PackagePatch where
  ReadOnly : Bool
deriving DecidableEq, Repr

def HeaderDigest : String := "Digest"

def SHA256 : String := "SHA256"

def HTTPTimeFormat : String := "Mon, 02 Jan 2006 15:04:05 GMT"

def userAgent : String := "fileheap/0.1.0"

/-! ## HTTP values -/

/-- The fields of url.URL that the client sets. -/
structure URL where
  Scheme : String
  Host : String
  Path : String
  RawQuery : String
deriving DecidableEq, Repr

/-- An http.Header holding one value per key. -/
abbrev Header := List (String × String)

/-- Header.Set: replaces the value stored under the key. -/
def Header.Set (h : Header) (key value : String) : Header :=
  h.filter (fun kv => kv.1 ≠ key) ++ [(key, value)]

/-- Header.Get: the value stored under the key, or the empty string. -/
def Header.Get (h : Header) (key : String) : String :=
  match h.find? (fun kv => kv.1 = key) with
  | some kv => kv.2
  | none => ""

/-- The body of an outgoing request. -/
inductive ReqBody where
  /-- a nil io.Reader -/
  | nil
  /-- http.NoBody -/
  | NoBody
  /-- a bytes.Buffer with the given content -/
  | buffer (b : List Byte)
  /-- the read end of the upload pipe -/
  | pipeReader
deriving DecidableEq, Repr

/-- The fields of http.Request that the client sets. -/
structure Request where
  Method : String
  URL : String
  Header : Header
  ContentLength : Int
  Body : ReqBody
deriving DecidableEq, Repr

deriving instance DecidableEq for Except

/-- The fields of http.Response that the client reads. `Body` is the result of
reading the response body to its end. -/
structure Response where
  StatusCode : Int
  ContentLength : Int
  Header : Header
  Body : Except Error (List Byte)
deriving DecidableEq

def MethodGet : String := "GET"
def MethodHead : String := "HEAD"
def MethodPut : String := "PUT"

def StatusNotFound : Int := 404

/-- The requests handed to the HTTP transport so far, oldest first. -/
structure World where
  requests : List Request
deriving DecidableEq, Repr

/-- The standard library and the network, as seen by the client. -/
structure Env where
  /-- path.Join -/
  pathJoin : List String → String
  /-- The method ResolveReference of url.URL -/
  ResolveReference : URL → URL → URL
  /-- The method String of url.URL -/
  URLString : URL → String
  /-- url.Values.Encode -/
  queryEncode : List (String × List String) → String
  /-- the error of http.NewRequest for a method and a URL, if any -/
  newRequestError : String → String → Option Error
  /-- The method Do of http.Client: the outcome of a request, given the requests made before it -/
  Do : List Request → Request → Except Error Response
  /-- json.NewEncoder(b).Encode for a request body -/
  jsonEncode : PackagePatch → Except Error (List Byte)
  /-- json.Unmarshal into an api.Error -/
  unmarshalError : List Byte → Except Error ApiError
  /-- json.Unmarshal into an api.ManifestPage -/
  unmarshalManifestPage : List Byte → Except Error ManifestPage
  /-- time.Parse for a layout and a value -/
  timeParse : String → String → Except Error Time

/-- The http.NewRequest of the standard library: fails as the environment says,
else builds a request with no headers whose content length is that of the body
when it is known. -/
def NewRequest (env : Env) (method url : String) (body : ReqBody) : Except Error Request :=
  match env.newRequestError method url with
  | some err => .error err
  | none =>
    .ok { Method := method, URL := url, Header := [],
          ContentLength := match body with
            | .buffer b => b.length
            | _ => 0,
          Body := match body with
            | .buffer [] => .NoBody
            | b => b }

/-! ## client.go -/

structure Client where
  baseURL : URL
deriving DecidableEq, Repr

/-- Client.sendRequest of `client/client.go`. -/
def Client.sendRequest (env : Env) (c : Client) (method path : String)
    (query : List (String × List String)) (body : Option PackagePatch) (wd : World) :
    Except Error Response × World :=
  let reader : Except Error ReqBody :=
    match body with
    | some v =>
      match env.jsonEncode v with
      | .error err => .error err
      | .ok b => .ok (.buffer b)
    | none => .ok .nil
  match reader with
  | .error err => (.error err, wd)
  | .ok reader =>
    let u := env.ResolveReference c.baseURL
      { Scheme := "", Host := "", Path := path, RawQuery := env.queryEncode query }
    match NewRequest env method (env.URLString u) reader with
    | .error err => (.error err, wd)
    | .ok req =>
      let req := { req with Header := req.Header.Set "Content-Type" "application/json" }
      let req := { req with Header := req.Header.Set "User-Agent" userAgent }
      (env.Do wd.requests req, { requests := wd.requests ++ [req] })

/-- The errorFromResponse of `client/client.go`. -/
def errorFromResponse (env : Env) (resp : Response) : Option Error :=
  if resp.StatusCode < 400 then none
  else
    match resp.Body with
    | .error err => some (.Wrap err "failed to read response")
    | .ok bytes =>
      match env.unmarshalError bytes with
      | .error err => some (.Wrap err "failed to parse response")
      | .ok apiErr => some (.api apiErr)

/-- The parseResponse of `client/client.go`; `unmarshal` is json.Unmarshal into
the type of the value. -/
def parseResponse {α : Type} (env : Env) (unmarshal : List Byte → Except Error α)
    (resp : Response) : Except Error α :=
  match errorFromResponse env resp with
  | some err => .error err
  | none =>
    match resp.Body with
    | .error err => .error err
    | .ok bytes => unmarshal bytes

/-! ## package.go and file.go -/

structure PackageRef where
  client : Client
  id : String
deriving DecidableEq, Repr

structure FileRef where
  pkg : PackageRef
  path : String
deriving DecidableEq, Repr

structure FileIterator where
  pkg : PackageRef
  path : String
  files : List FileInfo
  cursor : String
  lastRequest : Bool
deriving DecidableEq, Repr

/-- PackageRef.File of `client/package.go`. -/
def PackageRef.File (p : PackageRef) (path : String) : FileRef :=
  { pkg := p, path := path }

/-- PackageRef.Files of `client/package.go`. -/
def PackageRef.Files (p : PackageRef) (path : String) : FileIterator :=
  { pkg := p, path := path, files := [], cursor := "", lastRequest := false }

/-- The result of FileIterator.Next: (*FileRef, *api.FileInfo, error). -/
abbrev NextResult := Option FileRef × Option FileInfo × Option Error

/-- Lines 41 to 52 of FileIterator.Next: the listing request for the iterator's
cursor and path filter, and the decoding of its response. -/
def FileIterator.fetch (env : Env) (i : FileIterator) (wd : World) :
    Except Error ManifestPage × World :=
  let path := env.pathJoin ["/packages", i.pkg.id, "manifest"]
  let query := [("cursor", [i.cursor]), ("path", [i.path])]
  match i.pkg.client.sendRequest env MethodGet path query none wd with
  | (.error err, wd1) => (.error err, wd1)
  | (.ok resp, wd1) =>
    match parseResponse env env.unmarshalManifestPage resp with
    | .error err => (.error err, wd1)
    | .ok body => (.ok body, wd1)

/-- FileIterator.Next of `client/file.go`. The first argument bounds the depth of
the recursion; `none` means the bound was reached. -/
def FileIterator.Next (env : Env) : Nat → FileIterator → World →
    Option (NextResult × FileIterator × World)
  | 0, _, _ => none
  | fuel + 1, i, wd =>
    match i.files with
    | result :: rest =>
      some ((some { pkg := i.pkg, path := result.Path }, some result, none),
        { i with files := rest }, wd)
    | [] =>
      if i.lastRequest then some ((none, none, some .ErrDone), i, wd)
      else
        match i.fetch env wd with
        | (.error err, wd1) => some ((none, none, some err), i, wd1)
        | (.ok body, wd1) =>
          let i1 := { i with files := body.Files, cursor := body.Cursor }
          let i2 := if body.Cursor = "" then { i1 with lastRequest := true } else i1
          FileIterator.Next env fuel i2 wd1

/-- The page committed by Next after a successful fetch (lines 54 to 58). -/
def FileIterator.commit (i : FileIterator) (body : ManifestPage) : FileIterator :=
  if body.Cursor = "" then
    { i with files := body.Files, cursor := body.Cursor, lastRequest := true }
  else { i with files := body.Files, cursor := body.Cursor }

/-! ## Specification vocabulary for the iterator -/

/-- The URL of the listing request for a cursor and a path filter (lines 41 and 42
of FileIterator.Next, and the URL built by Client.sendRequest). -/
def listingURL (env : Env) (pkg : PackageRef) (path cursor : String) : String :=
  env.URLString (env.ResolveReference pkg.client.baseURL
    { Scheme := "", Host := "", Path := env.pathJoin ["/packages", pkg.id, "manifest"],
      RawQuery := env.queryEncode [("cursor", [cursor]), ("path", [path])] })

/-- The listing request that Client.sendRequest hands to the transport. -/
def listingRequest (env : Env) (pkg : PackageRef) (path cursor : String) : Request :=
  { Method := MethodGet, URL := listingURL env pkg path cursor,
    Header := [("Content-Type", "application/json"), ("User-Agent", userAgent)],
    ContentLength := 0, Body := .nil }

/-- The caller's loop: Next called the given number of times in a row, each call
with the given recursion bound; the results are collected in order. -/
def FileIterator.callNext (env : Env) (fuel : Nat) : Nat → FileIterator → World →
    Option (List NextResult × FileIterator × World)
  | 0, i, wd => some ([], i, wd)
  | k + 1, i, wd =>
    match i.Next env fuel wd with
    | none => none
    | some (r, i1, wd1) =>
      match FileIterator.callNext env fuel k i1 wd1 with
      | none => none
      | some (rs, i2, wd2) => some (r :: rs, i2, wd2)

/-- The entries of a sequence of pages, in order. -/
def entries : List ManifestPage → List FileInfo
  | [] => []
  | p :: ps => p.Files ++ entries ps

/-- The cursor sent with listing request number k (from 0): empty for the first
request, then the cursor of the page before. -/
def cursorAt (pages : List ManifestPage) : Nat → String
  | 0 => ""
  | k + 1 =>
    match pages[k]? with
    | some p => p.Cursor
    | none => ""

/-- The server holds the pages: the listing request number k, when it carries the
cursor of page k - 1 (the empty cursor for k = 0), is accepted and answered with
a success status and a body that decodes to page k. -/
def Serves (env : Env) (pkg : PackageRef) (path : String) (pages : List ManifestPage) : Prop :=
  ∀ (k : Nat) (p : ManifestPage), pages[k]? = some p →
    env.newRequestError MethodGet (listingURL env pkg path (cursorAt pages k)) = none ∧
    ∀ log : List Request, log.length = k →
      ∃ resp bytes, env.Do log (listingRequest env pkg path (cursorAt pages k)) = .ok resp ∧
        resp.StatusCode < 400 ∧ resp.Body = .ok bytes ∧
        env.unmarshalManifestPage bytes = .ok p

/-- There is at least one page and only the last page carries an empty cursor. -/
def FinalCursorOnly (pages : List ManifestPage) : Prop :=
  pages ≠ [] ∧ ∀ (k : Nat) (p : ManifestPage), pages[k]? = some p →
    (p.Cursor = "" ↔ k + 1 = pages.length)

/-- The result of Next for an entry of the package. -/
def entryResult (pkg : PackageRef) (f : FileInfo) : NextResult :=
  (some { pkg := pkg, path := f.Path }, some f, none)

/-- The result of Next on an exhausted iterator. -/
def doneResult : NextResult := (none, none, some .ErrDone)

/-- The cursors sent with the listing requests for a sequence of pages: the empty
cursor, then the cursor of every page but the last. -/
def cursorsSent (pages : List ManifestPage) : List String :=
  (List.range pages.length).map (cursorAt pages)

/-- The state of an iterator over the served pages after k listing requests,
with the entries in es still to be returned. -/
structure Progress (env : Env) (pkg : PackageRef) (path : String) (pages : List ManifestPage)
    (i : FileIterator) (wd : World) (k : Nat) (es : List FileInfo) : Prop where
  pkg_eq : i.pkg = pkg
  path_eq : i.path = path
  le : k ≤ pages.length
  log : wd.requests = (List.range k).map (fun j => listingRequest env pkg path (cursorAt pages j))
  cursor_eq : i.cursor = cursorAt pages k
  last : i.lastRequest = true ↔ k = pages.length
  rest : es = i.files ++ entries (pages.drop k)

/-! ## Standard library: encoding/base64, fmt, int64 -/

/-- The value of an int64 expression: the integer wrapped to 64 bits, two's complement. -/
def wrap64 (x : Int) : Int := (x + 2 ^ 63) % 2 ^ 64 - 2 ^ 63

/-- The values of type int64. -/
def IsInt64 (x : Int) : Prop := -(2 ^ 63) ≤ x ∧ x < 2 ^ 63

/-- The verb %d of fmt.Sprintf on an integer: decimal digits, with a minus sign
for negative numbers. -/
def fmtInt (x : Int) : String := toString x

/-- The character of the standard Base64 alphabet for a 6-bit value. -/
def base64Char (n : Nat) : Char :=
  if n < 26 then Char.ofNat (65 + n)
  else if n < 52 then Char.ofNat (97 + (n - 26))
  else if n < 62 then Char.ofNat (48 + (n - 52))
  else if n = 62 then '+'
  else '/'

/-- The 6-bit value of a character of the standard Base64 alphabet (the decodeMap
of base64.StdEncoding); `none` for every other character. -/
def base64Value (c : Char) : Option Nat :=
  if 65 ≤ c.toNat ∧ c.toNat ≤ 90 then some (c.toNat - 65)
  else if 97 ≤ c.toNat ∧ c.toNat ≤ 122 then some (c.toNat - 97 + 26)
  else if 48 ≤ c.toNat ∧ c.toNat ≤ 57 then some (c.toNat - 48 + 52)
  else if c = '+' then some 62
  else if c = '/' then some 63
  else none

def byteOfNat (n : Nat) : Byte := ⟨n % 256, Nat.mod_lt _ (by decide)⟩

/-- The characters of base64.StdEncoding.EncodeToString. -/
def base64Encode : List Byte → List Char
  | [] => []
  | [a] => [base64Char (a.val / 4), base64Char (a.val % 4 * 16), '=', '=']
  | [a, b] =>
    [base64Char (a.val / 4), base64Char (a.val % 4 * 16 + b.val / 16),
     base64Char (b.val % 16 * 4), '=']
  | a :: b :: c :: rest =>
    base64Char (a.val / 4) :: base64Char (a.val % 4 * 16 + b.val / 16) ::
      base64Char (b.val % 16 * 4 + c.val / 64) :: base64Char (c.val % 64) ::
      base64Encode rest

/-- The base64.StdEncoding.EncodeToString of the standard library. -/
def EncodeToString (src : List Byte) : String := String.mk (base64Encode src)

/-- The bytes of a quantum of 2, 3 or 4 six-bit values (the end of decodeQuantum). -/
def base64Assemble (dbuf : List Nat) : List Byte :=
  match dbuf with
  | [a, b] => [byteOfNat (a * 4 + b / 16)]
  | [a, b, c] => [byteOfNat (a * 4 + b / 16), byteOfNat (b % 16 * 16 + c / 4)]
  | [a, b, c, d] =>
    [byteOfNat (a * 4 + b / 16), byteOfNat (b % 16 * 16 + c / 4), byteOfNat (c % 4 * 64 + d)]
  | _ => []

/-- Skips the new line characters at the head of the input. -/
def skipNewlines : List Char → Nat → List Char × Nat
  | [], si => ([], si)
  | c :: cs, si => if c = '\n' ∨ c = '\r' then skipNewlines cs (si + 1) else (c :: cs, si)

/-- The decoding loop of base64.StdEncoding (Decode and decodeQuantum), on the
input that remains at offset si, with the six-bit values of the current quantum
in dbuf; len is the length of the whole input. -/
def base64Decode (len : Nat) : List Char → Nat → List Nat → Except Error (List Byte)
  | [], si, dbuf =>
    if dbuf.length = 0 then .ok [] else .error (.CorruptInputError (si - dbuf.length))
  | c :: rest, si, dbuf =>
    match base64Value c with
    | some v =>
      if dbuf.length = 3 then
        match base64Decode len rest (si + 1) [] with
        | .error err => .error err
        | .ok out => .ok (base64Assemble (dbuf ++ [v]) ++ out)
      else base64Decode len rest (si + 1) (dbuf ++ [v])
    | none =>
      if c = '\n' ∨ c = '\r' then base64Decode len rest (si + 1) dbuf
      else if c ≠ '=' then .error (.CorruptInputError si)
      else if dbuf.length < 2 then .error (.CorruptInputError si)
      else if dbuf.length = 2 then
        match skipNewlines rest (si + 1) with
        | ([], _) => .error (.CorruptInputError len)
        | (c2 :: rest2, si2) =>
          if c2 ≠ '=' then .error (.CorruptInputError (si2 - 1))
          else
            match skipNewlines rest2 (si2 + 1) with
            | ([], _) => .ok (base64Assemble dbuf)
            | (_ :: _, si3) => .error (.CorruptInputError si3)
      else
        match skipNewlines rest (si + 1) with
        | ([], _) => .ok (base64Assemble dbuf)
        | (_ :: _, si3) => .error (.CorruptInputError si3)

/-- The base64.StdEncoding.DecodeString of the standard library. -/
def DecodeString (s : String) : Except Error (List Byte) :=
  base64Decode s.data.length s.data 0 []

/-! ## file.go -/

/-- The Reader of `client/reader.go`: the response body and its declared size. -/
structure Reader where
  body : Except Error (List Byte)
  size : Int
deriving DecidableEq

/-- Reader.Size of `client/reader.go`. -/
def Reader.Size (r : Reader) : Int := r.size

/-- FileRef.Path of `client/file.go`. -/
def FileRef.Path (f : FileRef) : String := f.path

/-- FileRef.URL of `client/file.go`. -/
def FileRef.URL (env : Env) (f : FileRef) : String :=
  let path := env.pathJoin ["/packages", f.pkg.id, "files", f.path]
  let u := env.ResolveReference f.pkg.client.baseURL
    { Scheme := "", Host := "", Path := path, RawQuery := "" }
  env.URLString u

/-- FileRef.Info of `client/file.go`. -/
def FileRef.Info (env : Env) (f : FileRef) (wd : World) : Except Error FileInfo × World :=
  match NewRequest env MethodHead (f.URL env) .nil with
  | .error err => (.error (.WithStack err), wd)
  | .ok req =>
    let wd1 : World := { requests := wd.requests ++ [req] }
    match env.Do wd.requests req with
    | .error err => (.error (.WithStack err), wd1)
    | .ok resp =>
      if resp.StatusCode = StatusNotFound then (.error .ErrFileNotFound, wd1)
      else
        let info : FileInfo :=
          { Path := f.path, Size := resp.ContentLength, Digest := [], Updated := .zero }
        let d := resp.Header.Get HeaderDigest
        let digested : Except Error FileInfo :=
          if d ≠ "" then
            match DecodeString d with
            | .error err => .error (.WithStack err)
            | .ok digest => .ok { info with Digest := digest }
          else .ok info
        match digested with
        | .error err => (.error err, wd1)
        | .ok info =>
          let t := resp.Header.Get "Last-Modified"
          if t ≠ "" then
            match env.timeParse HTTPTimeFormat t with
            | .error err => (.error (.WithStack err), wd1)
            | .ok updated => (.ok { info with Updated := updated }, wd1)
          else (.ok info, wd1)

/-- FileRef.NewReader of `client/file.go`. -/
def FileRef.NewReader (env : Env) (f : FileRef) (wd : World) : Except Error Reader × World :=
  match NewRequest env MethodGet (f.URL env) .nil with
  | .error err => (.error (.WithStack err), wd)
  | .ok req =>
    let wd1 : World := { requests := wd.requests ++ [req] }
    match env.Do wd.requests req with
    | .error err => (.error (.WithStack err), wd1)
    | .ok resp =>
      if resp.StatusCode = StatusNotFound then (.error .ErrFileNotFound, wd1)
      else (.ok { body := resp.Body, size := resp.ContentLength }, wd1)

/-- FileRef.NewRangeReader of `client/file.go`; offset and length are int64 values. -/
def FileRef.NewRangeReader (env : Env) (f : FileRef) (offset length : Int) (wd : World) :
    Except Error Reader × World :=
  match NewRequest env MethodGet (f.URL env) .nil with
  | .error err => (.error (.WithStack err), wd)
  | .ok req =>
    let range : String :=
      if length < 0 then "bytes=" ++ fmtInt offset ++ "-"
      else "bytes=" ++ fmtInt offset ++ "-" ++ fmtInt (wrap64 (wrap64 (offset + length) - 1))
    let req : Request := { req with Header := req.Header.Set "Range" range }
    let wd1 : World := { requests := wd.requests ++ [req] }
    match env.Do wd.requests req with
    | .error err => (.error (.WithStack err), wd1)
    | .ok resp =>
      if resp.StatusCode = StatusNotFound then (.error .ErrFileNotFound, wd1)
      else (.ok { body := resp.Body, size := resp.ContentLength }, wd1)

/-- The value of the Range header set by NewRangeReader (lines 164 to 168). -/
def rangeHeader (offset length : Int) : String :=
  if length < 0 then "bytes=" ++ fmtInt offset ++ "-"
  else "bytes=" ++ fmtInt offset ++ "-" ++ fmtInt (wrap64 (wrap64 (offset + length) - 1))

/-! ## writer.go -/

/-- The state of an io.Pipe: the bytes handed from the write end to the read
end so far, whether the write end was closed, and the error the read end was
closed with. -/
structure Pipe where
  data : List Byte
  wclosed : Bool
  rerr : Option Error
deriving DecidableEq, Repr

/-- The pipe returned by io.Pipe. -/
def Pipe.new : Pipe := { data := [], wclosed := false, rerr := none }

/-- The method Close of io.PipeWriter: closes the write end; the result is always nil. -/
def Pipe.CloseWrite (p : Pipe) : Option Error × Pipe :=
  (none, { p with wclosed := true })

/-- The method CloseWithError of io.PipeReader: the first error the read end is closed with
is kept. -/
def Pipe.CloseWithError (p : Pipe) (err : Error) : Pipe :=
  match p.rerr with
  | some _ => p
  | none => { p with rerr := some err }

/-- The method Write of io.PipeWriter: fails at once on a closed pipe; on an open pipe the
transport on the read end decides how many of the bytes it takes and with what
error the call returns (`pipeWrite`). -/
def Pipe.Write (pipeWrite : List Byte → List Byte → Nat × Option Error) (p : Pipe)
    (b : List Byte) : (Nat × Option Error) × Pipe :=
  if p.wclosed then ((0, some .ErrClosedPipe), p)
  else
    match p.rerr with
    | some err => ((0, some err), p)
    | none =>
      let r := pipeWrite p.data b
      ((min r.1 b.length, r.2), { p with data := p.data ++ b.take r.1 })

/-- The WriteOpts of `client/file.go`. -/
structure WriteOpts where
  Length : Int
  Digest : List Byte
deriving DecidableEq, Repr

/-- The Writer of `client/writer.go`. The channel `done` is `true` once closed.
A writer with a pipe whose `done` is still open has its upload goroutine in flight. -/
structure Writer where
  file : FileRef
  length : Int
  digest : List Byte
  pw : Option Pipe
  done : Bool
  err : Option Error
deriving DecidableEq, Repr

/-- FileRef.NewWriter of `client/file.go`. -/
def FileRef.NewWriter (f : FileRef) (opts : Option WriteOpts) : Except Error Writer :=
  let opts : WriteOpts :=
    match opts with
    | none => { Length := 0, Digest := [] }
    | some o => o
  .ok { file := f, length := opts.Length, digest := opts.Digest, pw := none, done := false,
        err := none }

/-- The closure setErr of Writer.open: records the error and closes the read end
of the pipe with it. -/
def Writer.setErr (w : Writer) (err : Error) : Writer :=
  { w with err := some err, pw := w.pw.map (fun p => p.CloseWithError err) }

/-- The request built by the goroutine of Writer.open (lines 82 to 97). -/
def Writer.request (env : Env) (w : Writer) : Except Error Request :=
  let path := env.pathJoin ["/packages", w.file.pkg.id, "files", w.file.path]
  let u := env.ResolveReference w.file.pkg.client.baseURL
    { Scheme := "", Host := "", Path := path, RawQuery := "" }
  match NewRequest env MethodPut (env.URLString u) .pipeReader with
  | .error err => .error err
  | .ok req =>
    let req := { req with Header := req.Header.Set "User-Agent" userAgent }
    let req := { req with ContentLength := w.length }
    let req := if w.length = 0 then { req with Body := .NoBody } else req
    let digest := "SHA256 " ++ EncodeToString w.digest
    .ok { req with Header := req.Header.Set HeaderDigest digest }

/-- The goroutine of Writer.open (lines 79 to 109), run to its end: it builds the
request, sends it, records an error if there is one, and closes `done`. -/
def Writer.upload (env : Env) (w : Writer) (wd : World) : Writer × World :=
  match w.request env with
  | .error err => ({ w.setErr err with done := true }, wd)
  | .ok req =>
    let wd1 : World := { requests := wd.requests ++ [req] }
    match env.Do wd.requests req with
    | .error err => ({ w.setErr err with done := true }, wd1)
    | .ok resp =>
      match errorFromResponse env resp with
      | some err => ({ w.setErr err with done := true }, wd1)
      | none => ({ w with done := true }, wd1)

/-- The error that the goroutine of Writer.open hands to setErr, nil when the
upload succeeds: the three error branches of lines 84 to 108. -/
def Writer.uploadResult (env : Env) (w : Writer) (wd : World) : Option Error :=
  match w.request env with
  | .error err => some err
  | .ok req =>
    match env.Do wd.requests req with
    | .error err => some err
    | .ok resp => errorFromResponse env resp

/-- Writer.open of `client/writer.go`: creates the pipe and starts the goroutine. -/
def Writer.open (w : Writer) : Writer :=
  { w with pw := some Pipe.new }

/-- The scheduler lets the goroutine of an opened writer run to its end, if it
has not done so before. -/
def Writer.background (env : Env) (w : Writer) (wd : World) : Writer × World :=
  if w.pw.isSome ∧ w.done = false then w.upload env wd else (w, wd)

/-- Writer.Close of `client/writer.go`. Receiving from `done` lets the goroutine
run to its end. -/
def Writer.Close (env : Env) (w : Writer) (wd : World) : Option Error × Writer × World :=
  let w := if w.pw.isNone then w.open else w
  let closed := (w.pw.getD Pipe.new).CloseWrite
  let w := { w with pw := some closed.2 }
  match closed.1 with
  | some err => (some err, w, wd)
  | none =>
    let waited := if w.done then (w, wd) else w.upload env wd
    (waited.1.err, waited.1, waited.2)

/-- Writer.Write of `client/writer.go`. -/
def Writer.Write (pipeWrite : List Byte → List Byte → Nat × Option Error) (w : Writer)
    (p : List Byte) : (Nat × Option Error) × Writer :=
  match w.err with
  | some err => ((0, some err), w)
  | none =>
    let w := if w.pw.isNone then w.open else w
    let written := (w.pw.getD Pipe.new).Write pipeWrite p
    (written.1, { w with pw := some written.2 })

/-- The writer of Close once the pipe is open and its write end closed (lines 36 to 41). -/
def Writer.closing (w : Writer) : Writer :=
  let w := if w.pw.isNone then w.open else w
  { w with pw := some (w.pw.getD Pipe.new).CloseWrite.2 }

/-! ## Sample environments -/

/-- A sample environment: paths are joined with slashes, URLs are printed as
scheme, host, path and query, every request is accepted, the transport and the
JSON decoders are the given functions. -/
def sampleEnv (transport : List Request → Request → Except Error Response)
    (unmarshalError : List Byte → Except Error ApiError)
    (unmarshalManifestPage : List Byte → Except Error ManifestPage) : Env where
  pathJoin := fun elems => "/".intercalate elems
  ResolveReference := fun base ref => { base with Path := ref.Path, RawQuery := ref.RawQuery }
  URLString := fun u =>
    u.Scheme ++ "://" ++ u.Host ++ u.Path ++ (if u.RawQuery = "" then "" else "?" ++ u.RawQuery)
  queryEncode := fun q =>
    "&".intercalate (q.map (fun kv => kv.1 ++ "=" ++ ",".intercalate kv.2))
  newRequestError := fun _ _ => none
  Do := transport
  jsonEncode := fun _ => .ok []
  unmarshalError := unmarshalError
  unmarshalManifestPage := unmarshalManifestPage
  timeParse := fun _ _ => .error (.other "parsing time")

/-- A server that holds the given pages: it answers the k-th request with a body
of k zero bytes, which decodes to page k, and refuses every later request. -/
def pagesEnv (pages : List ManifestPage) : Env :=
  sampleEnv
    (fun log _ =>
      if log.length < pages.length then
        .ok { StatusCode := 200, ContentLength := -1, Header := [],
              Body := .ok (List.replicate log.length 0) }
      else .error (.other "connection refused"))
    (fun _ => .error (.other "unexpected end of JSON input"))
    (fun b =>
      match pages[b.length]? with
      | some p => .ok p
      | none => .error (.other "unexpected end of JSON input"))

/-- A server that answers every listing request with an empty page and the cursor x. -/
def loopEnv : Env :=
  sampleEnv
    (fun _ _ => .ok { StatusCode := 200, ContentLength := -1, Header := [], Body := .ok [] })
    (fun _ => .error (.other "unexpected end of JSON input"))
    (fun _ => .ok { Files := [], Cursor := "x" })

/-- The bytes of a text of ASCII characters. -/
def bytesOf (s : String) : List Byte := s.data.map (fun c => byteOfNat c.toNat)

/-- The JSON text of an error envelope, as the tags of api.Error write it: code,
message, and detail when it is not empty. -/
def envelopeJSON (e : ApiError) : List Byte :=
  bytesOf ("\x7b\"code\":" ++ toString e.Code ++ ",\"message\":\"" ++ e.Message ++ "\""
    ++ (if e.Detail = "" then "" else ",\"detail\":\"" ++ e.Detail ++ "\"") ++ "\x7d")

/-- A server that answers every request with the given response. Its decoder of
error envelopes knows one document, the JSON text of the given envelope; it fails
on the empty body and on every other body. -/
def answerEnv (resp : Response) (apiErr : ApiError) : Env :=
  sampleEnv (fun _ _ => .ok resp)
    (fun b =>
      if b = envelopeJSON apiErr then .ok apiErr
      else if b = [] then .error (.other "unexpected end of JSON input")
      else .error (.other "invalid character"))
    (fun _ => .error (.other "unexpected end of JSON input"))

def fileA : FileInfo := { Path := "a", Size := 1, Digest := [], Updated := .zero }
def fileB : FileInfo := { Path := "b", Size := 2, Digest := [], Updated := .zero }
def fileC : FileInfo := { Path := "c", Size := 3, Digest := [], Updated := .zero }

def samplePackage : PackageRef :=
  { client := { baseURL := { Scheme := "https", Host := "fileheap", Path := "", RawQuery := "" } },
    id := "pkg" }

def sampleFile : FileRef := samplePackage.File "dir/data.bin"

/-- The pages of the example: A and B with the cursor x, then C with no cursor. -/
def samplePages : List ManifestPage :=
  [{ Files := [fileA, fileB], Cursor := "x" }, { Files := [fileC], Cursor := "" }]

/-- An empty page with the cursor x, then a page with C and no cursor. -/
def emptyFirstPages : List ManifestPage :=
  [{ Files := [], Cursor := "x" }, { Files := [fileC], Cursor := "" }]

def notFoundEnvelope : ApiError := { Code := 404, Message := "package not found", Detail := "" }

def serverErrorEnvelope : ApiError := { Code := 500, Message := "boom", Detail := "" }

/-- The answer 404 to a GET or PUT request, with the JSON text of the envelope as
its body. -/
def notFoundResponse : Response :=
  { StatusCode := 404, ContentLength := 42, Header := [],
    Body := .ok (envelopeJSON notFoundEnvelope) }

/-- The answer 404 to a HEAD request: no body. -/
def notFoundHead : Response :=
  { StatusCode := 404, ContentLength := 42, Header := [], Body := .ok [] }

/-- The answer 404 with an empty body. -/
def notFoundEmpty : Response :=
  { StatusCode := 404, ContentLength := 0, Header := [], Body := .ok [] }

/-- The answer 500 with the JSON text of the envelope as its body. -/
def serverErrorResponse : Response :=
  { StatusCode := 500, ContentLength := 29, Header := [],
    Body := .ok (envelopeJSON serverErrorEnvelope) }

/-- The digest of the example in `api/model.go`: the 32 bytes whose Base64 form is
qj7BbmrMgJ2LKBhmInYlar/S8bRBy1FXSTPz1L0RXRE=. -/
def sampleDigest : List Byte :=
  [170, 62, 193, 110, 106, 204, 128, 157, 139, 40, 24, 102, 34, 118, 37, 106,
   191, 210, 241, 180, 65, 203, 81, 87, 73, 51, 243, 212, 189, 17, 93, 17]

/-- The answer to a HEAD request for a file of 4 bytes with the digest header in
the documented form. -/
def digestResponse : Response :=
  { StatusCode := 200, ContentLength := 4,
    Header := [(HeaderDigest, "SHA256 " ++ EncodeToString sampleDigest)], Body := .ok [] }

/-- A writer of length 0 as NewWriter makes it. -/
def emptyFileWriter : Writer :=
  { file := sampleFile, length := 0, digest := sampleDigest, pw := none, done := false,
    err := none }

/-- The writer of length 0 after open: its upload goroutine is in flight. -/
def openedWriter : Writer := emptyFileWriter.open

/-- A writer whose upload failed: the goroutine recorded the error and closed
the read end of the pipe with it. -/
def failedWriter : Writer :=
  { file := sampleFile, length := 4, digest := sampleDigest,
    pw := some { data := [], wclosed := false, rerr := some (.api notFoundEnvelope) },
    done := true, err := some (.api notFoundEnvelope) }

/-- A transport on the read end of the pipe that takes every byte. -/
def takeAll : List Byte → List Byte → Nat × Option Error :=
  fun _ b => (b.length, none)

/-! # Theorems -/

/-! ## Requests issued by the iterator -/

theorem sendRequest_world (env : Env) (c : Client) (method path : String)
    (query : List (String × List String)) (body : Option PackagePatch) (wd : World) :
    (c.sendRequest env method path query body wd).2 = wd ∨
      ∃ req, (c.sendRequest env method path query body wd).2
        = { requests := wd.requests ++ [req] } := by
  unfold Client.sendRequest
  simp only
  split
  · left; rfl
  · split
    · left; rfl
    · right; exact ⟨_, rfl⟩

theorem fetch_world_eq (env : Env) (i : FileIterator) (wd : World) :
    (i.fetch env wd).2 = (i.pkg.client.sendRequest env MethodGet
      (env.pathJoin ["/packages", i.pkg.id, "manifest"])
      [("cursor", [i.cursor]), ("path", [i.path])] none wd).2 := by
  unfold FileIterator.fetch
  simp only
  split
  · next h => simp [h]
  · next h => split <;> simp [h]

theorem fetch_world (env : Env) (i : FileIterator) (wd : World) :
    (i.fetch env wd).2 = wd ∨
      ∃ req, (i.fetch env wd).2 = { requests := wd.requests ++ [req] } := by
  rw [fetch_world_eq]
  exact sendRequest_world _ _ _ _ _ _ _

theorem fetch_length_le (env : Env) (i : FileIterator) (wd : World) :
    (i.fetch env wd).2.requests.length ≤ wd.requests.length + 1 := by
  rcases fetch_world env i wd with h | ⟨req, h⟩ <;> rw [h] <;> simp

theorem Next_buffered (env : Env) (fuel : Nat) (i : FileIterator) (wd : World)
    (result : FileInfo) (rest : List FileInfo) (hf : i.files = result :: rest) :
    i.Next env (fuel + 1) wd =
      some ((some { pkg := i.pkg, path := result.Path }, some result, none),
        { i with files := rest }, wd) := by
  rw [FileIterator.Next]; simp [hf]

theorem Next_exhausted (env : Env) (fuel : Nat) (i : FileIterator) (wd : World)
    (hf : i.files = []) (hl : i.lastRequest = true) :
    i.Next env (fuel + 1) wd = some ((none, none, some .ErrDone), i, wd) := by
  rw [FileIterator.Next]; simp [hf, hl]

theorem Next_fetch_error (env : Env) (fuel : Nat) (i : FileIterator) (wd wd1 : World)
    (err : Error) (hf : i.files = []) (hl : i.lastRequest = false)
    (hfe : i.fetch env wd = (.error err, wd1)) :
    i.Next env (fuel + 1) wd = some ((none, none, some err), i, wd1) := by
  rw [FileIterator.Next]; simp [hf, hl, hfe]

theorem Next_fetch_ok (env : Env) (fuel : Nat) (i : FileIterator) (wd wd1 : World)
    (body : ManifestPage) (hf : i.files = []) (hl : i.lastRequest = false)
    (hfe : i.fetch env wd = (.ok body, wd1)) :
    i.Next env (fuel + 1) wd = FileIterator.Next env fuel (i.commit body) wd1 := by
  rw [FileIterator.Next]; simp only [hf, hl, hfe, FileIterator.commit]
  split <;> simp_all

/-- Fuel monotonicity -/
theorem Next_mono (env : Env) (fuel : Nat) : ∀ (i : FileIterator) (wd : World) r,
    i.Next env fuel wd = some r → i.Next env (fuel + 1) wd = some r := by
  induction fuel with
  | zero => intro i wd r h; simp [FileIterator.Next] at h
  | succ n ih =>
    intro i wd r h
    cases hf : i.files with
    | cons f rest => rw [Next_buffered _ _ _ _ _ _ hf] at h ⊢; exact h
    | nil =>
      cases hl : i.lastRequest with
      | true => rw [Next_exhausted _ _ _ _ hf hl] at h ⊢; exact h
      | false =>
        rcases hfe : i.fetch env wd with ⟨err | body, wd1⟩
        · rw [Next_fetch_error _ _ _ _ _ _ hf hl hfe] at h ⊢; exact h
        · rw [Next_fetch_ok _ _ _ _ _ _ hf hl hfe] at h ⊢; exact ih _ _ _ h

theorem Next_requests_only_when_empty (env : Env) (fuel : Nat) (i : FileIterator) (wd : World)
    (r : NextResult × FileIterator × World) (h : i.Next env fuel wd = some r)
    (hreq : r.2.2.requests ≠ wd.requests) : i.files = [] ∧ i.lastRequest = false := by
  cases fuel with
  | zero => simp [FileIterator.Next] at h
  | succ n =>
    cases hf : i.files with
    | cons f rest =>
      rw [Next_buffered _ _ _ _ _ _ hf] at h
      simp at h; subst h; simp at hreq
    | nil =>
      cases hl : i.lastRequest with
      | true =>
        rw [Next_exhausted _ _ _ _ hf hl] at h
        simp at h; subst h; simp at hreq
      | false => exact ⟨rfl, rfl⟩

theorem fetch_eq (env : Env) (i : FileIterator) (wd : World)
    (hnr : env.newRequestError MethodGet (listingURL env i.pkg i.path i.cursor) = none) :
    i.fetch env wd =
      ((match env.Do wd.requests (listingRequest env i.pkg i.path i.cursor) with
        | .error e => .error e
        | .ok resp => parseResponse env env.unmarshalManifestPage resp),
       { requests := wd.requests ++ [listingRequest env i.pkg i.path i.cursor] }) := by
  unfold listingURL at hnr
  unfold FileIterator.fetch Client.sendRequest NewRequest
  simp only [hnr, listingRequest, listingURL, Header.Set]
  simp
  generalize env.Do wd.requests _ = d
  cases d with
  | error e => rfl
  | ok resp => simp only; cases parseResponse env env.unmarshalManifestPage resp <;> rfl

theorem parseResponse_ok {α : Type} (env : Env) (unmarshal : List Byte → Except Error α)
    (resp : Response) (bytes : List Byte) (v : α) (hs : resp.StatusCode < 400)
    (hb : resp.Body = .ok bytes) (hu : unmarshal bytes = .ok v) :
    parseResponse env unmarshal resp = .ok v := by
  simp [parseResponse, errorFromResponse, hs, hb, hu]

theorem entries_drop (pages : List ManifestPage) (k : Nat) (p : ManifestPage)
    (hp : pages[k]? = some p) :
    entries (pages.drop k) = p.Files ++ entries (pages.drop (k + 1)) := by
  induction pages generalizing k with
  | nil => simp at hp
  | cons q qs ih =>
    cases k with
    | zero => simp at hp; subst hp; simp [entries]
    | succ k => simp at hp; simpa using ih k hp

theorem entries_drop_length (pages : List ManifestPage) :
    entries (pages.drop pages.length) = [] := by
  simp [entries]

theorem Progress.fetch {env : Env} {pkg : PackageRef} {path : String}
    {pages : List ManifestPage} {i : FileIterator} {wd : World} {k : Nat} {es : List FileInfo}
    (hs : Serves env pkg path pages) (hc : FinalCursorOnly pages)
    (h : Progress env pkg path pages i wd k es) (hf : i.files = []) (p : ManifestPage)
    (hp : pages[k]? = some p) :
    ∃ wd1, i.fetch env wd = (.ok p, wd1) ∧
      Progress env pkg path pages (i.commit p) wd1 (k + 1) es := by
  obtain ⟨hnr, hdo⟩ := hs k p hp
  have hlen : wd.requests.length = k := by rw [h.log]; simp
  obtain ⟨resp, bytes, hd, hst, hb, hu⟩ := hdo wd.requests hlen
  have hk : k < pages.length := by
    rcases Nat.lt_or_ge k pages.length with hlt | hge
    · exact hlt
    · rw [List.getElem?_eq_none hge] at hp; cases hp
  refine ⟨{ requests := wd.requests ++ [listingRequest env pkg path (cursorAt pages k)] }, ?_, ?_⟩
  · rw [fetch_eq env i wd (by rw [h.pkg_eq, h.path_eq, h.cursor_eq]; exact hnr)]
    rw [h.pkg_eq, h.path_eq, h.cursor_eq, hd]
    simp only [parseResponse_ok env _ resp bytes p hst hb hu]
  · have hcur : cursorAt pages (k + 1) = p.Cursor := by simp [cursorAt, hp]
    constructor
    · unfold FileIterator.commit; split <;> exact h.pkg_eq
    · unfold FileIterator.commit; split <;> exact h.path_eq
    · exact hk
    · simp only [List.range_succ, List.map_append, List.map_cons, List.map_nil, h.log]
    · rw [hcur]; unfold FileIterator.commit; split <;> rfl
    · have hiff := hc.2 k p hp
      have hl : i.lastRequest = false := by
        cases hlr : i.lastRequest with
        | false => rfl
        | true => have := h.last.mp hlr; omega
      unfold FileIterator.commit
      split
      · next hce => simp; exact hiff.mp hce
      · next hce =>
        simp [hl]
        intro hh; exact hce (hiff.mpr hh)
    · rw [h.rest, hf, entries_drop pages k p hp]
      unfold FileIterator.commit; split <;> simp

theorem Progress.next {env : Env} {pkg : PackageRef} {path : String}
    {pages : List ManifestPage} (hs : Serves env pkg path pages) (hc : FinalCursorOnly pages)
    (m : Nat) : ∀ (i : FileIterator) (wd : World) (k : Nat) (es : List FileInfo),
    Progress env pkg path pages i wd k es → pages.length - k ≤ m →
    ∀ fuel, m + 1 ≤ fuel →
      (es = [] → ∃ i' wd', i.Next env fuel wd = some (doneResult, i', wd') ∧
        Progress env pkg path pages i' wd' pages.length []) ∧
      (∀ f es', es = f :: es' → ∃ i' wd' k', i.Next env fuel wd
          = some (entryResult pkg f, i', wd') ∧
        Progress env pkg path pages i' wd' k' es') := by
  induction m with
  | zero =>
    intro i wd k es h hm fuel hfuel
    obtain ⟨fuel, rfl⟩ : ∃ n, fuel = n + 1 := ⟨fuel - 1, by omega⟩
    have hk : k = pages.length := by have := h.le; omega
    cases hf : i.files with
    | cons f rest =>
      have hes : es = f :: (rest ++ entries (pages.drop k)) := by rw [h.rest, hf]; rfl
      refine ⟨fun h0 => (by rw [hes] at h0; cases h0), ?_⟩
      intro f' es' hfe
      rw [hes] at hfe; cases hfe
      refine ⟨_, _, k, (Next_buffered _ _ _ _ _ _ hf).trans (by rw [h.pkg_eq]; rfl), ?_⟩
      exact ⟨rfl, h.path_eq, h.le, h.log, h.cursor_eq, h.last, rfl⟩
    | nil =>
      have hes : es = [] := by rw [h.rest, hf, hk]; simp [entries]
      refine ⟨fun _ => ⟨i, wd, Next_exhausted _ _ _ _ hf (h.last.mpr hk), ?_⟩, ?_⟩
      · subst hes; rw [hk] at h; exact h
      · intro f es' hfe; rw [hes] at hfe; cases hfe
  | succ m ih =>
    intro i wd k es h hm fuel hfuel
    obtain ⟨fuel, rfl⟩ : ∃ n, fuel = n + 1 := ⟨fuel - 1, by omega⟩
    cases hf : i.files with
    | cons f rest =>
      have hes : es = f :: (rest ++ entries (pages.drop k)) := by rw [h.rest, hf]; rfl
      refine ⟨fun h0 => (by rw [hes] at h0; cases h0), ?_⟩
      intro f' es' hfe
      rw [hes] at hfe; cases hfe
      refine ⟨_, _, k, (Next_buffered _ _ _ _ _ _ hf).trans (by rw [h.pkg_eq]; rfl), ?_⟩
      exact ⟨rfl, h.path_eq, h.le, h.log, h.cursor_eq, h.last, rfl⟩
    | nil =>
      rcases Nat.lt_or_ge k pages.length with hlt | hge
      · have hl : i.lastRequest = false := by
          cases hlr : i.lastRequest with
          | false => rfl
          | true => have := h.last.mp hlr; omega
        have hp : pages[k]? = some pages[k] := List.getElem?_eq_getElem hlt
        obtain ⟨wd1, hfetch, hprog⟩ := Progress.fetch hs hc h hf pages[k] hp
        rw [Next_fetch_ok _ _ _ _ _ _ hf hl hfetch]
        exact ih _ _ _ _ hprog (by omega) fuel (by omega)
      · have hk : k = pages.length := by have := h.le; omega
        have hes : es = [] := by rw [h.rest, hf, hk]; simp [entries]
        refine ⟨fun _ => ⟨i, wd, Next_exhausted _ _ _ _ hf (h.last.mpr hk), ?_⟩, ?_⟩
        · subst hes; rw [hk] at h; exact h
        · intro f es' hfe; rw [hes] at hfe; cases hfe

theorem callNext_succ (env : Env) (fuel k : Nat) (i : FileIterator) (wd : World) :
    i.callNext env fuel (k + 1) wd =
      match i.Next env fuel wd with
      | none => none
      | some (r, i1, wd1) =>
        match FileIterator.callNext env fuel k i1 wd1 with
        | none => none
        | some (rs, i2, wd2) => some (r :: rs, i2, wd2) := by
  rw [FileIterator.callNext]

theorem Progress.callNext_done {env : Env} {pkg : PackageRef} {path : String}
    {pages : List ManifestPage} (j : Nat) : ∀ (i : FileIterator) (wd : World),
    Progress env pkg path pages i wd pages.length [] →
    i.callNext env (pages.length + 1) j wd = some (List.replicate j doneResult, i, wd) := by
  induction j with
  | zero => intro i wd _; rfl
  | succ j ih =>
    intro i wd h
    have hf : i.files = [] := by
      have := h.rest; simp [entries] at this; exact this
    have hn := Next_exhausted env pages.length i wd hf (h.last.mpr rfl)
    rw [callNext_succ, hn]
    simp only [ih i wd h, List.replicate_succ, doneResult]

theorem Progress.callNext {env : Env} {pkg : PackageRef} {path : String}
    {pages : List ManifestPage} (hs : Serves env pkg path pages) (hc : FinalCursorOnly pages)
    (j : Nat) (es : List FileInfo) : ∀ (i : FileIterator) (wd : World) (k : Nat),
    Progress env pkg path pages i wd k es →
    ∃ i' wd', i.callNext env (pages.length + 1) (es.length + (j + 1)) wd
        = some (es.map (entryResult pkg) ++ List.replicate (j + 1) doneResult, i', wd') ∧
      Progress env pkg path pages i' wd' pages.length [] := by
  induction es with
  | nil =>
    intro i wd k h
    obtain ⟨i', wd', hn, hp⟩ :=
      (Progress.next hs hc pages.length i wd k [] h (by omega) (pages.length + 1)
        (by omega)).1 rfl
    refine ⟨i', wd', ?_, hp⟩
    rw [List.length_nil, Nat.zero_add, callNext_succ, hn]
    simp only [Progress.callNext_done j i' wd' hp, List.map_nil, List.nil_append,
      List.replicate_succ]
  | cons f es ih =>
    intro i wd k h
    obtain ⟨i1, wd1, k1, hn, hp⟩ :=
      (Progress.next hs hc pages.length i wd k (f :: es) h (by omega) (pages.length + 1)
        (by omega)).2 f es rfl
    obtain ⟨i', wd', hc', hp'⟩ := ih i1 wd1 k1 hp
    refine ⟨i', wd', ?_, hp'⟩
    have hlen : (f :: es).length + (j + 1) = (es.length + (j + 1)) + 1 := by simp; omega
    rw [hlen, callNext_succ, hn]
    simp only [hc', List.map_cons, List.cons_append]

theorem Progress.init (env : Env) (pkg : PackageRef) (path : String)
    (pages : List ManifestPage) (hc : FinalCursorOnly pages) :
    Progress env pkg path pages (pkg.Files path) { requests := [] } 0 (entries pages) := by
  refine ⟨rfl, rfl, Nat.zero_le _, by simp, rfl, ?_, by simp [PackageRef.Files]⟩
  simp [PackageRef.Files]
  intro h
  exact hc.1 (List.length_eq_zero.mp h.symm)

/-- C1: when the server holds the pages p1..pn, only pn with an empty cursor, and
answers the k-th listing request (carrying the cursor of the page before) with
page k, repeated calls to Next on a fresh iterator return the entries of
p1 ++ ... ++ pn in order, each with a FileRef of the iterator's package and the
entry's path, and every later call returns ErrDone; each call ends within
n + 1 levels of recursion, and however many calls follow, the requests issued are
exactly the n listing requests for the successive cursors. -/
theorem Next_yields_pages_in_order (env : Env) (pkg : PackageRef) (path : String)
    (pages : List ManifestPage) (hs : Serves env pkg path pages)
    (hc : FinalCursorOnly pages) (j : Nat) :
    ∃ i' wd', (pkg.Files path).callNext env (pages.length + 1)
        ((entries pages).length + (j + 1)) { requests := [] }
        = some ((entries pages).map (entryResult pkg) ++ List.replicate (j + 1) doneResult,
            i', wd') ∧
      wd'.requests = (cursorsSent pages).map (listingRequest env pkg path) := by
  obtain ⟨i', wd', h, hp⟩ :=
    Progress.callNext hs hc j (entries pages) _ _ 0 (Progress.init env pkg path pages hc)
  exact ⟨i', wd', h, by rw [hp.log]; simp [cursorsSent]⟩

/-! ## One call to Next -/

/-- C10 (amended): a call to Next that ends issues a listing request only when the
buffer is empty and the last page was not fetched yet; when the page it fetches, if
it fetches at all, has a file or an empty cursor, the call ends within one level of
recursion and issues at most one listing request; and after a page with no files
and a non-empty cursor the same call fetches again, for the cursor of that page. -/
theorem Next_at_most_one_fetch (env : Env) (i : FileIterator) (wd : World) :
    (∀ fuel r, i.Next env fuel wd = some r → r.2.2.requests ≠ wd.requests →
      i.files = [] ∧ i.lastRequest = false) ∧
    ((∀ body wd1, i.files = [] → i.lastRequest = false → i.fetch env wd = (.ok body, wd1) →
        body.Files ≠ [] ∨ body.Cursor = "") →
      ∃ r, i.Next env 2 wd = some r ∧ r.2.2.requests.length ≤ wd.requests.length + 1) ∧
    (∀ body wd1 fuel, i.files = [] → i.lastRequest = false →
      i.fetch env wd = (.ok body, wd1) → body.Files = [] → body.Cursor ≠ "" →
      i.Next env (fuel + 2) wd =
        match (i.commit body).fetch env wd1 with
        | (.error err, wd2) => some ((none, none, some err), i.commit body, wd2)
        | (.ok body2, wd2) => ((i.commit body).commit body2).Next env fuel wd2) := by
  refine ⟨fun fuel r h hreq => Next_requests_only_when_empty env fuel i wd r h hreq, ?_, ?_⟩
  · intro hpage
    cases hf : i.files with
    | cons f rest => exact ⟨_, Next_buffered _ _ _ _ _ _ hf, by simp⟩
    | nil =>
      cases hl : i.lastRequest with
      | true => exact ⟨_, Next_exhausted _ _ _ _ hf hl, by simp⟩
      | false =>
        have hlen := fetch_length_le env i wd
        rcases hfe : i.fetch env wd with ⟨err | body, wd1⟩
        · rw [hfe] at hlen
          exact ⟨_, Next_fetch_error _ _ _ _ _ _ hf hl hfe, hlen⟩
        · rw [hfe] at hlen
          rw [Next_fetch_ok _ _ _ _ _ _ hf hl hfe]
          rcases hpage body wd1 hf hl hfe with hne | hc
          · obtain ⟨f, rest, hfr⟩ := List.exists_cons_of_ne_nil hne
            have hcf : (i.commit body).files = f :: rest := by
              unfold FileIterator.commit; split <;> simpa using hfr
            exact ⟨_, Next_buffered _ _ _ _ _ _ hcf, hlen⟩
          · cases hbf : body.Files with
            | cons f rest =>
              have hcf : (i.commit body).files = f :: rest := by
                unfold FileIterator.commit; split <;> simpa using hbf
              exact ⟨_, Next_buffered _ _ _ _ _ _ hcf, hlen⟩
            | nil =>
              have hcf : (i.commit body).files = [] := by
                unfold FileIterator.commit; split <;> simpa using hbf
              have hcl : (i.commit body).lastRequest = true := by
                unfold FileIterator.commit; simp [hc]
              exact ⟨_, Next_exhausted _ _ _ _ hcf hcl, hlen⟩
  · intro body wd1 fuel hf hl hfe hbf hbc
    have hcf : (i.commit body).files = [] := by
      unfold FileIterator.commit; split <;> simpa using hbf
    have hcl : (i.commit body).lastRequest = false := by
      unfold FileIterator.commit; simp [hbc, hl]
    rw [Next_fetch_ok _ _ _ _ _ _ hf hl hfe]
    rcases hfe2 : (i.commit body).fetch env wd1 with ⟨err | body2, wd2⟩
    · exact Next_fetch_error _ _ _ _ _ _ hcf hcl hfe2
    · exact Next_fetch_ok _ _ _ _ _ _ hcf hcl hfe2

/-- C7 (amended): after a call to Next that returns an error other than ErrDone
the buffer is empty, lastRequest is false, package and path filter are unchanged,
and the fetch that failed is the fetch of the iterator as it is after the call,
so the next call issues that listing request again; when the first fetch of the
call is the one that fails, the iterator equals the iterator before the call. -/
theorem Next_error_state (env : Env) (fuel : Nat) : ∀ (i : FileIterator) (wd : World)
    (r : NextResult) (i' : FileIterator) (wd' : World) (e : Error),
    i.Next env fuel wd = some (r, i', wd') → r.2.2 = some e → e ≠ .ErrDone →
    i'.files = [] ∧ i'.lastRequest = false ∧ i'.pkg = i.pkg ∧ i'.path = i.path ∧
    (∃ wd0, i'.fetch env wd0 = (.error e, wd')) ∧
    (∀ e0 wd1, i.fetch env wd = (.error e0, wd1) → i' = i ∧ e = e0 ∧ wd' = wd1) := by
  induction fuel with
  | zero => intro i wd r i' wd' e h; simp [FileIterator.Next] at h
  | succ n ih =>
    intro i wd r i' wd' e h he hne
    cases hf : i.files with
    | cons f rest =>
      rw [Next_buffered _ _ _ _ _ _ hf] at h
      simp at h; obtain ⟨rfl, rfl, rfl⟩ := h; simp at he
    | nil =>
      cases hl : i.lastRequest with
      | true =>
        rw [Next_exhausted _ _ _ _ hf hl] at h
        simp at h; obtain ⟨rfl, rfl, rfl⟩ := h; simp at he; exact absurd he.symm hne
      | false =>
        rcases hfe : i.fetch env wd with ⟨err | body, wd1⟩
        · rw [Next_fetch_error _ _ _ _ _ _ hf hl hfe] at h
          simp at h; obtain ⟨rfl, rfl, rfl⟩ := h
          simp at he; subst he
          refine ⟨hf, hl, rfl, rfl, ⟨wd, hfe⟩, ?_⟩
          intro e0 wd2 h2
          simp at h2; exact ⟨rfl, h2.1, h2.2⟩
        · rw [Next_fetch_ok _ _ _ _ _ _ hf hl hfe] at h
          obtain ⟨h1, h2, h3, h4, h5, -⟩ := ih _ _ _ _ _ _ h he hne
          refine ⟨h1, h2, ?_, ?_, h5, ?_⟩
          · rw [h3]; unfold FileIterator.commit; split <;> rfl
          · rw [h4]; unfold FileIterator.commit; split <;> rfl
          · intro e0 wd2 h2; simp at h2

/-! ## Upload writer -/

/-- C2: once an error e is recorded in the error slot of a Writer, Write returns
(0, e) for every byte slice and leaves the writer as it was: no pipe is opened,
no goroutine is started and no byte is handed to the pipe. -/
theorem Write_after_error (pipeWrite : List Byte → List Byte → Nat × Option Error)
    (w : Writer) (p : List Byte) (e : Error) (herr : w.err = some e) :
    w.Write pipeWrite p = ((0, some e), w) := by
  unfold Writer.Write
  rw [herr]

theorem upload_done (env : Env) (w : Writer) (wd : World) :
    (w.upload env wd).1.done = true := by
  unfold Writer.upload
  cases w.request env with
  | error err => rfl
  | ok req =>
    simp only
    cases env.Do wd.requests req with
    | error err => rfl
    | ok resp =>
      simp only
      cases errorFromResponse env resp <;> rfl

theorem upload_pw (env : Env) (w : Writer) (wd : World) (hp : w.pw.isSome = true) :
    (w.upload env wd).1.pw.isSome = true := by
  have hs : ∀ err, (w.setErr err).pw.isSome = true := by
    intro err; simp [Writer.setErr, hp]
  unfold Writer.upload
  cases w.request env with
  | error err => exact hs err
  | ok req =>
    simp only
    cases env.Do wd.requests req with
    | error err => exact hs err
    | ok resp =>
      simp only
      cases errorFromResponse env resp with
      | none => exact hp
      | some err => exact hs err

theorem Close_eq (env : Env) (w : Writer) (wd : World) :
    w.Close env wd =
      if w.closing.done then (w.closing.err, w.closing, wd)
      else ((w.closing.upload env wd).1.err, (w.closing.upload env wd).1,
        (w.closing.upload env wd).2) := by
  unfold Writer.Close Writer.closing Pipe.CloseWrite
  cases hpw : w.pw <;> cases hdn : w.done <;> simp [hpw, hdn, Writer.open]

theorem closing_pw (w : Writer) : w.closing.pw.isSome = true := by
  unfold Writer.closing; simp

theorem Close_result (env : Env) (w : Writer) (wd : World) :
    (w.Close env wd).1 = (w.Close env wd).2.1.err ∧ (w.Close env wd).2.1.done = true ∧
      (w.Close env wd).2.1.pw.isSome = true := by
  rw [Close_eq]
  split
  · next h => exact ⟨rfl, h, closing_pw w⟩
  · exact ⟨rfl, upload_done _ _ _, upload_pw _ _ _ (closing_pw w)⟩

theorem Close_done (env : Env) (w : Writer) (wd : World) (hd : w.done = true)
    (hp : w.pw.isSome = true) :
    (w.Close env wd).1 = w.err ∧ (w.Close env wd).2.1.err = w.err ∧
      (w.Close env wd).2.2 = wd := by
  obtain ⟨pipe, hpw⟩ := Option.isSome_iff_exists.mp hp
  have hc : w.closing.done = true := by
    unfold Writer.closing; simp [hpw, hd]
  have he : w.closing.err = w.err := by
    unfold Writer.closing; simp [hpw]
  rw [Close_eq, if_pos hc]
  exact ⟨he, he, rfl⟩

theorem background_done (env : Env) (w : Writer) (wd : World) (hp : w.pw.isSome = true) :
    (w.background env wd).1.done = true ∧ (w.background env wd).1.pw.isSome = true := by
  unfold Writer.background
  cases hd : w.done with
  | true => simp [hd, hp]
  | false =>
    simp only [hp, true_and, if_true]
    exact ⟨upload_done env w wd, upload_pw env w wd hp⟩

/-- Once the goroutine of an opened writer has run to its end, Close returns the
error it recorded (nil if none) and issues no request. -/
theorem Close_after_background (env : Env) (w : Writer) (wd : World)
    (hp : w.pw.isSome = true) :
    ((w.background env wd).1.Close env (w.background env wd).2).1
        = (w.background env wd).1.err ∧
    ((w.background env wd).1.Close env (w.background env wd).2).2.2
        = (w.background env wd).2 := by
  obtain ⟨hd, hq⟩ := background_done env w wd hp
  obtain ⟨g1, -, g3⟩ := Close_done env _ (w.background env wd).2 hd hq
  exact ⟨g1, g3⟩

theorem uploadResult_congr (env : Env) (w v : Writer) (wd : World) (hf : v.file = w.file)
    (hl : v.length = w.length) (hd : v.digest = w.digest) :
    v.uploadResult env wd = w.uploadResult env wd := by
  unfold Writer.uploadResult Writer.request
  rw [hf, hl, hd]

theorem upload_err (env : Env) (w : Writer) (wd : World) :
    (w.upload env wd).1.err =
      match w.uploadResult env wd with
      | some err => some err
      | none => w.err := by
  unfold Writer.upload Writer.uploadResult
  cases w.request env with
  | error err => rfl
  | ok req =>
    simp only
    cases env.Do wd.requests req with
    | error err => rfl
    | ok resp =>
      simp only
      cases errorFromResponse env resp <;> rfl

theorem upload_err_of_none (env : Env) (w : Writer) (wd : World) (he : w.err = none) :
    (w.upload env wd).1.err = w.uploadResult env wd := by
  rw [upload_err]
  cases w.uploadResult env wd with
  | none => exact he
  | some err => rfl

theorem closing_fields (w : Writer) :
    w.closing.done = w.done ∧ w.closing.err = w.err ∧ w.closing.file = w.file ∧
      w.closing.length = w.length ∧ w.closing.digest = w.digest := by
  unfold Writer.closing Writer.open
  cases w.pw <;> simp

theorem Close_inflight (env : Env) (w : Writer) (wd : World) (hd : w.done = false)
    (he : w.err = none) : (w.Close env wd).1 = w.uploadResult env wd := by
  obtain ⟨c1, c2, c3, c4, c5⟩ := closing_fields w
  rw [Close_eq]
  simp only [c1, hd, Bool.false_eq_true, if_false]
  rw [upload_err_of_none env _ wd (c2.trans he), uploadResult_congr env w w.closing wd c3 c4 c5]

theorem background_err (env : Env) (w : Writer) (wd : World) (hp : w.pw.isSome = true)
    (hd : w.done = false) (he : w.err = none) :
    (w.background env wd).1.err = w.uploadResult env wd := by
  unfold Writer.background
  simp only [hp, hd, and_self, if_true]
  exact upload_err_of_none env w wd he

/-- C3: Close is idempotent in its result. For a writer whose upload goroutine has
run to its end, the first Close returns the result of the upload (nil after a
success, the error handed to setErr after a failure), the second Close returns
that same value, and neither issues a request nor changes the recorded error. In
general: on a finished writer Close returns the recorded error as it stands; on a
writer whose upload has not finished Close returns the result of the upload; and a
second Close always returns what the first returned, issues no request and leaves
the recorded error as it is. -/
theorem Close_twice (env : Env) (w : Writer) (wd : World) :
    (w.pw.isSome = true → w.done = false → w.err = none →
      ((w.background env wd).1.Close env (w.background env wd).2).1
        = w.uploadResult env wd ∧
      (((w.background env wd).1.Close env (w.background env wd).2).2.1.Close env
          ((w.background env wd).1.Close env (w.background env wd).2).2.2).1
        = w.uploadResult env wd ∧
      ((w.background env wd).1.Close env (w.background env wd).2).2.2
        = (w.background env wd).2 ∧
      (((w.background env wd).1.Close env (w.background env wd).2).2.1.Close env
          ((w.background env wd).1.Close env (w.background env wd).2).2.2).2.2
        = (w.background env wd).2 ∧
      (((w.background env wd).1.Close env (w.background env wd).2).2.1.Close env
          ((w.background env wd).1.Close env (w.background env wd).2).2.2).2.1.err
        = w.uploadResult env wd) ∧
    (w.pw.isSome = true → w.done = true →
      (w.Close env wd).1 = w.err ∧ (w.Close env wd).2.2 = wd ∧
      (w.Close env wd).2.1.err = w.err) ∧
    (w.done = false → w.err = none → (w.Close env wd).1 = w.uploadResult env wd) ∧
    (w.Close env wd).1 = (w.Close env wd).2.1.err ∧
    ((w.Close env wd).2.1.Close env (w.Close env wd).2.2).1 = (w.Close env wd).1 ∧
    ((w.Close env wd).2.1.Close env (w.Close env wd).2.2).2.2 = (w.Close env wd).2.2 ∧
    ((w.Close env wd).2.1.Close env (w.Close env wd).2.2).2.1.err
      = (w.Close env wd).2.1.err := by
  have second : ∀ (v : Writer) (vd : World),
      ((v.Close env vd).2.1.Close env (v.Close env vd).2.2).1 = (v.Close env vd).1 ∧
      ((v.Close env vd).2.1.Close env (v.Close env vd).2.2).2.2 = (v.Close env vd).2.2 ∧
      ((v.Close env vd).2.1.Close env (v.Close env vd).2.2).2.1.err
        = (v.Close env vd).2.1.err := by
    intro v vd
    obtain ⟨h1, h2, h3⟩ := Close_result env v vd
    obtain ⟨g1, g2, g3⟩ := Close_done env _ (v.Close env vd).2.2 h2 h3
    exact ⟨g1.trans h1.symm, g3, g2⟩
  refine ⟨?_, ?_, Close_inflight env w wd, (Close_result env w wd).1, second w wd⟩
  · intro hp hd he
    obtain ⟨bd, bp⟩ := background_done env w wd hp
    obtain ⟨g1, g2, g3⟩ := Close_done env _ (w.background env wd).2 bd bp
    obtain ⟨s1, s2, s3⟩ := second (w.background env wd).1 (w.background env wd).2
    have be := background_err env w wd hp hd he
    exact ⟨g1.trans be, (s1.trans g1).trans be, g3, s2.trans g3, (s3.trans g2).trans be⟩
  · intro hp hd
    obtain ⟨g1, g2, g3⟩ := Close_done env w wd hd hp
    exact ⟨g1, g3, g2⟩

theorem request_ok (env : Env) (w : Writer)
    (hreq : env.newRequestError MethodPut (w.file.URL env) = none) :
    w.request env = .ok
      { Method := MethodPut, URL := w.file.URL env,
        Header := [("User-Agent", userAgent),
          (HeaderDigest, "SHA256 " ++ EncodeToString w.digest)],
        ContentLength := w.length,
        Body := if w.length = 0 then .NoBody else .pipeReader } := by
  unfold FileRef.URL at hreq
  unfold Writer.request NewRequest FileRef.URL
  simp only [hreq]
  by_cases hl : w.length = 0
  · simp [hl, Header.Set, HeaderDigest]
  · simp [hl, Header.Set, HeaderDigest]

theorem NewWriter_eq (f : FileRef) (opts : Option WriteOpts) (w : Writer)
    (hw : f.NewWriter opts = .ok w) :
    w.file = f ∧ w.pw = none ∧ w.done = false ∧ w.err = none := by
  unfold FileRef.NewWriter at hw
  simp only [Except.ok.injEq] at hw
  subst hw
  exact ⟨rfl, rfl, rfl, rfl⟩

theorem closing_fresh (w : Writer) (hp : w.pw = none) (hd : w.done = false) :
    w.closing.done = false ∧ w.closing.file = w.file ∧ w.closing.length = w.length ∧
      w.closing.digest = w.digest := by
  unfold Writer.closing Writer.open
  simp [hp, hd]

theorem request_congr (env : Env) (w v : Writer) (hf : v.file = w.file)
    (hl : v.length = w.length) (hd : v.digest = w.digest) : v.request env = w.request env := by
  unfold Writer.request
  rw [hf, hl, hd]

/-- C4: for a writer made by NewWriter with declared length 0 and never written
to, Close opens the pipe and issues exactly one request: a PUT to the URL of the
file with ContentLength 0, the body http.NoBody, and the User-Agent and Digest
headers (given that http.NewRequest accepts the URL). -/
theorem Close_zero_length_upload (env : Env) (f : FileRef) (opts : Option WriteOpts)
    (w : Writer) (wd : World) (hw : f.NewWriter opts = .ok w) (hlen : w.length = 0)
    (hreq : env.newRequestError MethodPut (f.URL env) = none) :
    (w.Close env wd).2.1.pw.isSome = true ∧
    (w.Close env wd).2.2.requests = wd.requests ++
      [{ Method := MethodPut, URL := f.URL env,
         Header := [("User-Agent", userAgent),
           (HeaderDigest, "SHA256 " ++ EncodeToString w.digest)],
         ContentLength := 0, Body := .NoBody }] := by
  refine ⟨(Close_result env w wd).2.2, ?_⟩
  obtain ⟨hf, hp, hd, -⟩ := NewWriter_eq f opts w hw
  obtain ⟨c1, c2, c3, c4⟩ := closing_fresh w hp hd
  rw [Close_eq]
  simp only [c1, Bool.false_eq_true, if_false]
  unfold Writer.upload
  rw [request_congr env w w.closing c2 c3 c4, request_ok env w (by rw [hf]; exact hreq)]
  simp only [hlen, if_true, hf]
  cases env.Do wd.requests _ with
  | error err => rfl
  | ok resp => simp only; cases errorFromResponse env resp <;> rfl

/-! ## Readers and metadata -/

theorem NewRequest_ok (env : Env) (method url : String)
    (hreq : env.newRequestError method url = none) :
    NewRequest env method url .nil
      = .ok { Method := method, URL := url, Header := [], ContentLength := 0, Body := .nil } := by
  unfold NewRequest
  rw [hreq]

theorem Info_notFound (env : Env) (f : FileRef) (wd : World) (req : Request) (resp : Response)
    (hreq : NewRequest env MethodHead (f.URL env) .nil = .ok req)
    (hdo : env.Do wd.requests req = .ok resp) (hst : resp.StatusCode = 404) :
    (f.Info env wd).1 = .error .ErrFileNotFound := by
  unfold FileRef.Info
  rw [hreq]
  simp only [hdo, hst, StatusNotFound, if_true]

theorem NewReader_status (env : Env) (f : FileRef) (wd : World) (req : Request)
    (resp : Response) (hreq : NewRequest env MethodGet (f.URL env) .nil = .ok req)
    (hdo : env.Do wd.requests req = .ok resp) :
    (f.NewReader env wd).1 =
      if resp.StatusCode = 404 then .error .ErrFileNotFound
      else .ok { body := resp.Body, size := resp.ContentLength } := by
  unfold FileRef.NewReader
  rw [hreq]
  simp only [hdo, StatusNotFound]
  split <;> rfl

theorem NewRangeReader_status (env : Env) (f : FileRef) (offset length : Int) (wd : World)
    (req : Request) (resp : Response)
    (hreq : NewRequest env MethodGet (f.URL env) .nil = .ok req)
    (hdo : env.Do wd.requests
      { req with Header := req.Header.Set "Range" (rangeHeader offset length) } = .ok resp) :
    (f.NewRangeReader env offset length wd).1 =
      if resp.StatusCode = 404 then .error .ErrFileNotFound
      else .ok { body := resp.Body, size := resp.ContentLength } := by
  unfold rangeHeader at hdo
  unfold FileRef.NewRangeReader
  rw [hreq]
  simp only [hdo, StatusNotFound]
  split <;> rfl

theorem errorFromResponse_of_ge (env : Env) (resp : Response) (hst : 400 ≤ resp.StatusCode) :
    errorFromResponse env resp = some
      (match resp.Body with
       | .error err => .Wrap err "failed to read response"
       | .ok bytes =>
         match env.unmarshalError bytes with
         | .error err => .Wrap err "failed to parse response"
         | .ok apiErr => .api apiErr) := by
  unfold errorFromResponse
  rw [if_neg (by omega)]
  cases resp.Body with
  | error err => rfl
  | ok bytes => simp only; cases env.unmarshalError bytes <;> rfl

theorem errorFromResponse_ne_notFound (env : Env) (resp : Response)
    (hst : 400 ≤ resp.StatusCode) :
    errorFromResponse env resp ≠ none ∧ errorFromResponse env resp ≠ some .ErrFileNotFound := by
  rw [errorFromResponse_of_ge env resp hst]
  refine ⟨by simp, ?_⟩
  cases resp.Body with
  | error err => simp
  | ok bytes => simp only; cases env.unmarshalError bytes <;> simp

theorem uploadResult_answered (env : Env) (w : Writer) (wd : World) (req : Request)
    (resp : Response) (hreq : w.request env = .ok req)
    (hdo : env.Do wd.requests req = .ok resp) :
    w.uploadResult env wd = errorFromResponse env resp := by
  unfold Writer.uploadResult
  rw [hreq]
  simp only [hdo]

theorem Close_answered_error (env : Env) (w : Writer) (wd : World) (req : Request)
    (resp : Response) (hd : w.done = false) (hreq : w.request env = .ok req)
    (hdo : env.Do wd.requests req = .ok resp) (hst : 400 ≤ resp.StatusCode) :
    (w.Close env wd).1 = errorFromResponse env resp := by
  obtain ⟨c1, -, c3, c4, c5⟩ := closing_fields w
  have hu : w.closing.uploadResult env wd = errorFromResponse env resp := by
    rw [uploadResult_congr env w w.closing wd c3 c4 c5]
    exact uploadResult_answered env w wd req resp hreq hdo
  rw [Close_eq]
  simp only [c1, hd, Bool.false_eq_true, if_false]
  rw [upload_err, hu]
  obtain ⟨err, he⟩ := Option.ne_none_iff_exists'.mp (errorFromResponse_ne_notFound env resp hst).1
  rw [he]

/-- C6 (amended): when the server answers the request of FileRef.Info, of
FileRef.NewReader or of FileRef.NewRangeReader with status 404, the call returns
exactly ErrFileNotFound and no value. When the server answers the PUT request of a
Writer whose upload has not finished with status 404, Close returns the error of
errorFromResponse instead (the decoded api.Error, or the wrapped failure to read
or parse the body), which is never ErrFileNotFound. -/
theorem notFound_translation (env : Env) (f : FileRef) (wd : World) (offset length : Int)
    (w : Writer) :
    (∀ req resp, NewRequest env MethodHead (f.URL env) .nil = .ok req →
      env.Do wd.requests req = .ok resp → resp.StatusCode = 404 →
      (f.Info env wd).1 = .error .ErrFileNotFound) ∧
    (∀ req resp, NewRequest env MethodGet (f.URL env) .nil = .ok req →
      env.Do wd.requests req = .ok resp → resp.StatusCode = 404 →
      (f.NewReader env wd).1 = .error .ErrFileNotFound) ∧
    (∀ req resp, NewRequest env MethodGet (f.URL env) .nil = .ok req →
      env.Do wd.requests
        { req with Header := req.Header.Set "Range" (rangeHeader offset length) } = .ok resp →
      resp.StatusCode = 404 →
      (f.NewRangeReader env offset length wd).1 = .error .ErrFileNotFound) ∧
    (∀ req resp, w.done = false → w.request env = .ok req →
      env.Do wd.requests req = .ok resp → resp.StatusCode = 404 →
      (w.Close env wd).1 = some
        (match resp.Body with
         | .error err => .Wrap err "failed to read response"
         | .ok bytes =>
           match env.unmarshalError bytes with
           | .error err => .Wrap err "failed to parse response"
           | .ok apiErr => .api apiErr) ∧
      (w.Close env wd).1 ≠ some .ErrFileNotFound) := by
  refine ⟨?_, ?_, ?_, ?_⟩
  · intro req resp hreq hdo hst
    exact Info_notFound env f wd req resp hreq hdo hst
  · intro req resp hreq hdo hst
    rw [NewReader_status env f wd req resp hreq hdo, if_pos hst]
  · intro req resp hreq hdo hst
    rw [NewRangeReader_status env f offset length wd req resp hreq hdo, if_pos hst]
  · intro req resp hd hreq hdo hst
    have hge : 400 ≤ resp.StatusCode := by omega
    have hc := Close_answered_error env w wd req resp hd hreq hdo hge
    refine ⟨?_, ?_⟩
    · rw [hc, errorFromResponse_of_ge env resp hge]
    · rw [hc]; exact (errorFromResponse_ne_notFound env resp hge).2

/-- The readers test the status 404 only: when the server answers the request of
NewReader or of NewRangeReader with any other status, the statuses from 400 up
included, the call returns a Reader over the body of the response and a nil
error. -/
theorem readers_test_only_notFound (env : Env) (f : FileRef) (wd : World)
    (offset length : Int) :
    (∀ req resp, NewRequest env MethodGet (f.URL env) .nil = .ok req →
      env.Do wd.requests req = .ok resp → resp.StatusCode ≠ 404 →
      (f.NewReader env wd).1 = .ok { body := resp.Body, size := resp.ContentLength }) ∧
    (∀ req resp, NewRequest env MethodGet (f.URL env) .nil = .ok req →
      env.Do wd.requests
        { req with Header := req.Header.Set "Range" (rangeHeader offset length) } = .ok resp →
      resp.StatusCode ≠ 404 →
      (f.NewRangeReader env offset length wd).1
        = .ok { body := resp.Body, size := resp.ContentLength }) := by
  refine ⟨?_, ?_⟩
  · intro req resp hreq hdo hst
    rw [NewReader_status env f wd req resp hreq hdo, if_neg hst]
  · intro req resp hreq hdo hst
    rw [NewRangeReader_status env f offset length wd req resp hreq hdo, if_neg hst]

theorem wrap64_id (x : Int) (h : IsInt64 x) : wrap64 x = x := by
  unfold IsInt64 at h
  unfold wrap64
  norm_num at h ⊢
  omega

theorem wrap64_sub_one (a b : Int) (h : IsInt64 (a + b - 1)) :
    wrap64 (wrap64 (a + b) - 1) = a + b - 1 := by
  unfold IsInt64 at h
  unfold wrap64
  norm_num at h ⊢
  omega

/-- C5 (amended): NewRangeReader issues one GET request for the file whose Range
header is "bytes=<offset>-" when length is negative, and "bytes=<offset>-<end>"
when it is not, where end is offset + length - 1 computed in int64 arithmetic; end
is the integer offset + length - 1 whenever that integer is an int64. -/
theorem NewRangeReader_range (env : Env) (f : FileRef) (offset length : Int) (wd : World)
    (hreq : env.newRequestError MethodGet (f.URL env) = none) :
    ∃ req, (f.NewRangeReader env offset length wd).2.requests = wd.requests ++ [req] ∧
      req.Method = MethodGet ∧ req.URL = f.URL env ∧
      (length < 0 → req.Header.Get "Range" = "bytes=" ++ fmtInt offset ++ "-") ∧
      (0 ≤ length → req.Header.Get "Range"
          = "bytes=" ++ fmtInt offset ++ "-"
            ++ fmtInt (wrap64 (wrap64 (offset + length) - 1))) ∧
      (0 ≤ length → IsInt64 (offset + length - 1) →
        req.Header.Get "Range"
          = "bytes=" ++ fmtInt offset ++ "-" ++ fmtInt (offset + length - 1)) := by
  unfold FileRef.NewRangeReader
  rw [NewRequest_ok env _ _ hreq]
  simp only
  refine ⟨{ Method := MethodGet, URL := f.URL env,
            Header := Header.Set [] "Range"
              (if length < 0 then "bytes=" ++ fmtInt offset ++ "-"
               else "bytes=" ++ fmtInt offset ++ "-"
                 ++ fmtInt (wrap64 (wrap64 (offset + length) - 1))),
            ContentLength := 0, Body := .nil }, ?_, ?_⟩
  · cases env.Do wd.requests _ with
    | error err => rfl
    | ok resp => simp only; split <;> rfl
  · refine ⟨rfl, rfl, ?_, ?_, ?_⟩
    · intro hl
      simp [Header.Set, Header.Get, hl]
    · intro hl
      have hn : ¬ length < 0 := by omega
      simp [Header.Set, Header.Get, hn]
    · intro hl hr
      have hn : ¬ length < 0 := by omega
      simp [Header.Set, Header.Get, hn, wrap64_sub_one offset length hr]

theorem base64Value_base64Char_fin : ∀ n : Fin 64, base64Value (base64Char n.val) = some n.val := by
  decide

theorem base64Value_base64Char (n : Nat) (h : n < 64) : base64Value (base64Char n) = some n :=
  base64Value_base64Char_fin ⟨n, h⟩

theorem base64Value_pad : base64Value '=' = none := by decide

theorem byteOfNat_eq (a : Byte) (n : Nat) (h : n = a.val) : byteOfNat n = a := by
  apply Fin.ext
  simp only [byteOfNat, h]
  exact Nat.mod_eq_of_lt a.isLt

theorem base64Decode_quantum (len si : Nat) (a b c : Byte) (rest : List Char) :
    base64Decode len
      (base64Char (a.val / 4) :: base64Char (a.val % 4 * 16 + b.val / 16) ::
        base64Char (b.val % 16 * 4 + c.val / 64) :: base64Char (c.val % 64) :: rest) si []
      = match base64Decode len rest (si + 1 + 1 + 1 + 1) [] with
        | .error err => .error err
        | .ok out => .ok (a :: b :: c :: out) := by
  have ha := a.isLt
  have hb := b.isLt
  have hc := c.isLt
  have h1 := base64Value_base64Char (a.val / 4) (by omega)
  have h2 := base64Value_base64Char (a.val % 4 * 16 + b.val / 16) (by omega)
  have h3 := base64Value_base64Char (b.val % 16 * 4 + c.val / 64) (by omega)
  have h4 := base64Value_base64Char (c.val % 64) (by omega)
  have e1 : byteOfNat (a.val / 4 * 4 + (a.val % 4 * 16 + b.val / 16) / 16) = a :=
    byteOfNat_eq a _ (by omega)
  have e2 : byteOfNat ((a.val % 4 * 16 + b.val / 16) % 16 * 16
      + (b.val % 16 * 4 + c.val / 64) / 4) = b := byteOfNat_eq b _ (by omega)
  have e3 : byteOfNat ((b.val % 16 * 4 + c.val / 64) % 4 * 64 + c.val % 64) = c :=
    byteOfNat_eq c _ (by omega)
  simp only [base64Decode, h1, h2, h3, h4, List.length_nil, List.length_cons, List.nil_append,
    List.cons_append, base64Assemble, e1, e2, e3]
  simp

theorem base64Decode_one (len si : Nat) (a : Byte) :
    base64Decode len [base64Char (a.val / 4), base64Char (a.val % 4 * 16), '=', '='] si []
      = .ok [a] := by
  have ha := a.isLt
  have h1 := base64Value_base64Char (a.val / 4) (by omega)
  have h2 := base64Value_base64Char (a.val % 4 * 16) (by omega)
  simp [base64Decode, h1, h2, base64Value_pad, skipNewlines, base64Assemble]
  exact byteOfNat_eq a _ (by omega)

theorem base64Decode_two (len si : Nat) (a b : Byte) :
    base64Decode len
      [base64Char (a.val / 4), base64Char (a.val % 4 * 16 + b.val / 16),
        base64Char (b.val % 16 * 4), '='] si []
      = .ok [a, b] := by
  have ha := a.isLt
  have hb := b.isLt
  have h1 := base64Value_base64Char (a.val / 4) (by omega)
  have h2 := base64Value_base64Char (a.val % 4 * 16 + b.val / 16) (by omega)
  have h3 := base64Value_base64Char (b.val % 16 * 4) (by omega)
  have e1 : byteOfNat (a.val / 4 * 4 + (a.val % 4 * 16 + b.val / 16) / 16) = a :=
    byteOfNat_eq a _ (by omega)
  simp [base64Decode, h1, h2, h3, base64Value_pad, skipNewlines, base64Assemble, e1]
  exact byteOfNat_eq b _ (by omega)

theorem base64Decode_encode (len : Nat) (src : List Byte) :
    ∀ si, base64Decode len (base64Encode src) si [] = .ok src := by
  induction src using base64Encode.induct with
  | case1 => intro si; simp [base64Encode, base64Decode]
  | case2 a => intro si; simp only [base64Encode]; exact base64Decode_one len si a
  | case3 a b => intro si; simp only [base64Encode]; exact base64Decode_two len si a b
  | case4 a b c rest ih =>
    intro si
    simp only [base64Encode]
    rw [base64Decode_quantum, ih]

/-- The standard Base64 encoding is decoded to the bytes it was made of. -/
theorem DecodeString_EncodeToString (src : List Byte) :
    DecodeString (EncodeToString src) = .ok src := by
  unfold DecodeString EncodeToString
  exact base64Decode_encode _ src 0

/-! ## The Digest header -/

theorem base64Decode_algorithm_name (len : Nat) (rest : List Char) :
    base64Decode len ('S' :: 'H' :: 'A' :: '2' :: '5' :: '6' :: ' ' :: rest) 0 []
      = .error (.CorruptInputError 6) := by
  simp [base64Decode, base64Value]

theorem DecodeString_digest_header (digest : List Byte) :
    DecodeString ("SHA256 " ++ EncodeToString digest) = .error (.CorruptInputError 6) := by
  unfold DecodeString
  have h : ("SHA256 " ++ EncodeToString digest).data
      = 'S' :: 'H' :: 'A' :: '2' :: '5' :: '6' :: ' ' :: (EncodeToString digest).data := by
    rw [String.data_append]; rfl
  rw [h, base64Decode_algorithm_name]

theorem Info_digest_header (env : Env) (f : FileRef) (wd : World) (req : Request)
    (resp : Response) (digest : List Byte)
    (hreq : NewRequest env MethodHead (f.URL env) .nil = .ok req)
    (hdo : env.Do wd.requests req = .ok resp) (hst : resp.StatusCode ≠ 404)
    (hd : resp.Header.Get HeaderDigest = "SHA256 " ++ EncodeToString digest) :
    (f.Info env wd).1 = .error (.WithStack (.CorruptInputError 6)) := by
  have hne : "SHA256 " ++ EncodeToString digest ≠ "" := by
    intro h
    have := congrArg String.data h
    rw [String.data_append] at this
    simp at this
  unfold FileRef.Info
  rw [hreq]
  simp only [hdo, hst, StatusNotFound, if_false, hd, DecodeString_digest_header, ne_eq, hne,
    not_false_eq_true, if_true]

/-- C9: the upload of a file with the digest of the example in `api/model.go`
sends the Digest header in the documented form, and FileRef.Info, given a response
with that same header, fails with the Base64 error at the space after the
algorithm name instead of returning the digest. -/
theorem Info_rejects_documented_digest :
    ((sampleFile.NewWriter (some { Length := 4, Digest := sampleDigest })).bind
        (fun w => w.request (answerEnv digestResponse notFoundEnvelope))).map
        (fun req => req.Header.Get HeaderDigest)
      = .ok "SHA256 qj7BbmrMgJ2LKBhmInYlar/S8bRBy1FXSTPz1L0RXRE=" ∧
    digestResponse.Header.Get HeaderDigest
      = "SHA256 qj7BbmrMgJ2LKBhmInYlar/S8bRBy1FXSTPz1L0RXRE=" ∧
    (sampleFile.Info (answerEnv digestResponse notFoundEnvelope) { requests := [] }).1
      = .error (.WithStack (.CorruptInputError 6)) := by
  decide

theorem pagesEnv_serves (pages : List ManifestPage) (pkg : PackageRef) (path : String) :
    Serves (pagesEnv pages) pkg path pages := by
  intro k p hp
  refine ⟨rfl, ?_⟩
  intro log hlen
  have hk : k < pages.length := by
    rcases Nat.lt_or_ge k pages.length with hlt | hge
    · exact hlt
    · rw [List.getElem?_eq_none hge] at hp; cases hp
  refine ⟨{ StatusCode := 200, ContentLength := -1, Header := [],
            Body := .ok (List.replicate k 0) }, List.replicate k 0, ?_, ?_, rfl, ?_⟩
  · simp [pagesEnv, sampleEnv, hlen, hk]
  · show (200 : Int) < 400
    decide
  · simp [pagesEnv, sampleEnv, hp]

theorem samplePages_final : FinalCursorOnly samplePages := by
  refine ⟨by decide, ?_⟩
  intro k p hp
  match k, hp with
  | 0, hp => simp [samplePages] at hp; subst hp; simp [samplePages]
  | 1, hp => simp [samplePages] at hp; subst hp; simp [samplePages]
  | k + 2, hp => simp [samplePages] at hp

theorem Next_yields_pages_in_order_witness :
    ((samplePackage.Files "").callNext (pagesEnv samplePages) 3 5 { requests := [] }).map
        (fun r => (r.1, r.2.2.requests.map (fun req => req.URL)))
      = some ([entryResult samplePackage fileA, entryResult samplePackage fileB,
          entryResult samplePackage fileC, doneResult, doneResult],
          ["https://fileheap/packages/pkg/manifest?cursor=&path=",
           "https://fileheap/packages/pkg/manifest?cursor=x&path="]) := by
  obtain ⟨i', wd', h, hlog⟩ := Next_yields_pages_in_order (pagesEnv samplePages) samplePackage ""
    samplePages (pagesEnv_serves samplePages samplePackage "") samplePages_final 1
  have h' : (samplePackage.Files "").callNext (pagesEnv samplePages) 3 5 { requests := [] }
      = some ([entryResult samplePackage fileA, entryResult samplePackage fileB,
          entryResult samplePackage fileC, doneResult, doneResult], i', wd') := h
  rw [h']
  simp only [Option.map_some', hlog]
  rfl

theorem Next_diverges (fuel : Nat) : ∀ (i : FileIterator) (wd : World),
    i.files = [] → i.lastRequest = false → i.Next loopEnv fuel wd = none := by
  induction fuel with
  | zero => intro i wd _ _; rfl
  | succ n ih =>
    intro i wd hf hl
    have hfe : i.fetch loopEnv wd = (.ok { Files := [], Cursor := "x" },
        { requests := wd.requests ++ [listingRequest loopEnv i.pkg i.path i.cursor] }) := by
      rw [fetch_eq loopEnv i wd rfl]; rfl
    rw [Next_fetch_ok _ _ _ _ _ _ hf hl hfe]
    apply ih
    · unfold FileIterator.commit; simp
    · unfold FileIterator.commit; simp [hl]

theorem Next_fetches_two_pages :
    ((samplePackage.Files "").Next (pagesEnv emptyFirstPages) 3 { requests := [] }).map
        (fun r => (r.1, r.2.2.requests.map (fun req => req.URL)))
      = some (entryResult samplePackage fileC,
          ["https://fileheap/packages/pkg/manifest?cursor=&path=",
           "https://fileheap/packages/pkg/manifest?cursor=x&path="]) ∧
    (samplePackage.Files "").Next (pagesEnv emptyFirstPages) 2 { requests := [] } = none := by
  decide

theorem Next_at_most_one_fetch_witness :
    (∃ r, (samplePackage.Files "").Next (pagesEnv samplePages) 2 { requests := [] } = some r ∧
      r.2.2.requests.length ≤ 1) ∧
    (samplePackage.Files "").Next (pagesEnv emptyFirstPages) 2 { requests := [] } = none := by
  have h := (Next_at_most_one_fetch (pagesEnv samplePages) (samplePackage.Files "")
    { requests := [] }).2.1 (by
      intro body wd1 _ _ hfe
      have hb : body = { Files := [fileA, fileB], Cursor := "x" } := by
        have h0 : (samplePackage.Files "").fetch (pagesEnv samplePages) { requests := [] }
            = (.ok { Files := [fileA, fileB], Cursor := "x" },
               { requests := [listingRequest (pagesEnv samplePages) samplePackage "" ""] }) := by
          decide
        rw [h0] at hfe
        simp only [Prod.mk.injEq, Except.ok.injEq] at hfe
        exact hfe.1.symm
      left; rw [hb]; simp)
  have g := (Next_at_most_one_fetch (pagesEnv emptyFirstPages) (samplePackage.Files "")
    { requests := [] }).2.2 { Files := [], Cursor := "x" }
    { requests := [listingRequest (pagesEnv emptyFirstPages) samplePackage "" ""] } 0
    rfl rfl (by decide) rfl (by decide)
  refine ⟨by simpa using h, ?_⟩
  rw [g]
  decide

theorem Next_error_moves_cursor :
    ((samplePackage.Files "").Next (pagesEnv [{ Files := [], Cursor := "x" }]) 2
        { requests := [] }).map (fun r => (r.1, r.2.1))
      = some ((none, none, some (.other "connection refused")),
          { pkg := samplePackage, path := "", files := [], cursor := "x",
            lastRequest := false }) ∧
    (samplePackage.Files "").cursor = "" := by
  decide

theorem Next_error_state_witness :
    (samplePackage.Files "").files = [] ∧
    (∃ wd0, (samplePackage.Files "").fetch (pagesEnv []) wd0
      = (.error (.other "connection refused"),
         { requests := [listingRequest (pagesEnv []) samplePackage "" ""] })) := by
  have h := Next_error_state (pagesEnv []) 1 (samplePackage.Files "") { requests := [] }
    (none, none, some (.other "connection refused")) (samplePackage.Files "")
    { requests := [listingRequest (pagesEnv []) samplePackage "" ""] }
    (.other "connection refused") (by decide) rfl (by decide)
  exact ⟨h.1, h.2.2.2.2.1⟩

theorem Write_after_error_witness :
    failedWriter.Write takeAll [1, 2, 3] = ((0, some (.api notFoundEnvelope)), failedWriter) :=
  Write_after_error takeAll failedWriter [1, 2, 3] (.api notFoundEnvelope) rfl

theorem Close_zero_length_upload_witness :
    ({ file := sampleFile, length := 0, digest := sampleDigest, pw := none, done := false,
       err := none } : Writer).Close (answerEnv digestResponse notFoundEnvelope)
        { requests := [] } |>.2.2.requests
      = [{ Method := "PUT", URL := "https://fileheap/packages/pkg/files/dir/data.bin",
           Header := [("User-Agent", "fileheap/0.1.0"),
             ("Digest", "SHA256 qj7BbmrMgJ2LKBhmInYlar/S8bRBy1FXSTPz1L0RXRE=")],
           ContentLength := 0, Body := .NoBody }] := by
  have h := Close_zero_length_upload (answerEnv digestResponse notFoundEnvelope) sampleFile
    (some { Length := 0, Digest := sampleDigest }) _ { requests := [] } rfl rfl rfl
  rw [h.2]
  decide

theorem RangeReader_overflow_example :
    (sampleFile.NewRangeReader (answerEnv digestResponse notFoundEnvelope)
        9223372036854775807 2 { requests := [] }).2.requests.map
        (fun req => req.Header.Get "Range")
      = ["bytes=9223372036854775807--9223372036854775808"] ∧
    "bytes=" ++ fmtInt 9223372036854775807 ++ "-" ++ fmtInt (9223372036854775807 + 2 - 1)
      = "bytes=9223372036854775807-9223372036854775808" := by
  decide

theorem NewRangeReader_range_witness :
    (∃ req, (sampleFile.NewRangeReader (answerEnv digestResponse notFoundEnvelope) 10 5
        { requests := [] }).2.requests = [req] ∧ req.Header.Get "Range" = "bytes=10-14") ∧
    (∃ req, (sampleFile.NewRangeReader (answerEnv digestResponse notFoundEnvelope) 10 (-1)
        { requests := [] }).2.requests = [req] ∧ req.Header.Get "Range" = "bytes=10-") := by
  obtain ⟨r1, h1, -, -, -, -, h5⟩ := NewRangeReader_range
    (answerEnv digestResponse notFoundEnvelope) sampleFile 10 5 { requests := [] } rfl
  obtain ⟨r2, g1, -, -, g4, -, -⟩ := NewRangeReader_range
    (answerEnv digestResponse notFoundEnvelope) sampleFile 10 (-1) { requests := [] } rfl
  refine ⟨⟨r1, by simpa using h1, ?_⟩, ⟨r2, by simpa using g1, ?_⟩⟩
  · rw [h5 (by decide) (by unfold IsInt64; norm_num)]; decide
  · rw [g4 (by decide)]; decide

theorem Close_twice_witness :
    ((openedWriter.background (answerEnv serverErrorResponse serverErrorEnvelope)
        { requests := [] }).1.Close (answerEnv serverErrorResponse serverErrorEnvelope)
        (openedWriter.background (answerEnv serverErrorResponse serverErrorEnvelope)
          { requests := [] }).2).1 = some (.api serverErrorEnvelope) ∧
    (failedWriter.Close (answerEnv serverErrorResponse serverErrorEnvelope)
        { requests := [] }).1 = some (.api notFoundEnvelope) ∧
    (failedWriter.Close (answerEnv serverErrorResponse serverErrorEnvelope)
        { requests := [] }).2.2 = { requests := [] } ∧
    (emptyFileWriter.Close (answerEnv serverErrorResponse serverErrorEnvelope)
        { requests := [] }).1 = some (.api serverErrorEnvelope) ∧
    (emptyFileWriter.Close (answerEnv digestResponse notFoundEnvelope)
        { requests := [] }).1 = none := by
  have h1 := (Close_twice (answerEnv serverErrorResponse serverErrorEnvelope) failedWriter
    { requests := [] }).2.1 rfl rfl
  have h2 := (Close_twice (answerEnv serverErrorResponse serverErrorEnvelope) emptyFileWriter
    { requests := [] }).2.2.1 rfl rfl
  have h3 := (Close_twice (answerEnv digestResponse notFoundEnvelope) emptyFileWriter
    { requests := [] }).2.2.1 rfl rfl
  have h0 := ((Close_twice (answerEnv serverErrorResponse serverErrorEnvelope) openedWriter
    { requests := [] }).1 rfl rfl rfl).1
  refine ⟨?_, h1.1, h1.2.1, ?_, ?_⟩
  · rw [h0]; decide
  · rw [h2]; decide
  · rw [h3]; decide

theorem Close_notFound_is_api_error :
    (emptyFileWriter.Close (answerEnv notFoundResponse notFoundEnvelope)
        { requests := [] }).1
      = some (.api { Code := 404, Message := "package not found", Detail := "" }) ∧
    (emptyFileWriter.Close (answerEnv notFoundEmpty notFoundEnvelope) { requests := [] }).1
      = some (.Wrap (.other "unexpected end of JSON input") "failed to parse response") ∧
    sampleFile.NewWriter (some { Length := 0, Digest := sampleDigest }) = .ok emptyFileWriter ∧
    notFoundResponse.StatusCode = 404 ∧ notFoundEmpty.StatusCode = 404 := by
  decide

theorem notFound_translation_witness :
    (sampleFile.Info (answerEnv notFoundHead notFoundEnvelope) { requests := [] }).1
      = .error .ErrFileNotFound ∧
    (sampleFile.NewReader (answerEnv notFoundResponse notFoundEnvelope) { requests := [] }).1
      = .error .ErrFileNotFound ∧
    (sampleFile.NewRangeReader (answerEnv notFoundResponse notFoundEnvelope) 10 5
      { requests := [] }).1 = .error .ErrFileNotFound ∧
    (emptyFileWriter.Close (answerEnv notFoundResponse notFoundEnvelope)
      { requests := [] }).1 = some (.api notFoundEnvelope) := by
  have h1 := (notFound_translation (answerEnv notFoundHead notFoundEnvelope) sampleFile
    { requests := [] } 10 5 emptyFileWriter).1 _ notFoundHead rfl rfl rfl
  have h := notFound_translation (answerEnv notFoundResponse notFoundEnvelope) sampleFile
    { requests := [] } 10 5 emptyFileWriter
  have h2 := h.2.1 _ notFoundResponse rfl rfl rfl
  have h3 := h.2.2.1 _ notFoundResponse rfl rfl rfl
  have h4 := (h.2.2.2 _ notFoundResponse rfl rfl rfl rfl).1
  refine ⟨h1, h2, h3, ?_⟩
  rw [h4]
  decide

/-- C8: a GET answered with status 500 and the error envelope as its body. Both
readers return a Reader over that body and a nil error, where errorFromResponse
reports the decoded api.Error for the same response. -/
theorem NewReader_serverError_returns_reader :
    (sampleFile.NewReader (answerEnv serverErrorResponse serverErrorEnvelope)
        { requests := [] }).1
      = .ok { body := .ok (envelopeJSON serverErrorEnvelope), size := 29 } ∧
    (sampleFile.NewRangeReader (answerEnv serverErrorResponse serverErrorEnvelope) 10 5
        { requests := [] }).1
      = .ok { body := .ok (envelopeJSON serverErrorEnvelope), size := 29 } ∧
    serverErrorResponse.StatusCode = 500 ∧
    errorFromResponse (answerEnv serverErrorResponse serverErrorEnvelope) serverErrorResponse
      = some (.api { Code := 500, Message := "boom", Detail := "" }) ∧
    envelopeJSON serverErrorEnvelope
      = bytesOf "\x7b\"code\":500,\"message\":\"boom\"\x7d" := by
  decide

end FileHeap
